import Mathlib

/-!
Shallow embedding of `pyembree/mesh_construction.pyx`.

The source constructs Embree triangle meshes from numpy arrays.  We model

  * numpy arrays as `NDArr`: a row-major data list together with an
    explicit shape; scalar indexing (`a[i, j]`, `a[i][j]`) is fallible and
    returns `none` on rank or bound mismatch (the Python IndexError /
    TypeError cases);
  * the Embree scene side as an explicit state `St`: the list of allocated
    geometry slots, the contents of the (most recently allocated) vertex
    and index buffers, and a chronological trace of buffer-protocol
    events (`alloc`, `acquire`, `write`, `release`);
  * the input arrays as part of the state (fields `inV`, `inI`) so that
    frame properties ("the inputs are never written") are expressible;
  * a raised Python exception as the `Res.err` constructor, carrying the
    state at the moment the exception propagates (the source has no
    try/finally, so no cleanup happens on that path).

Buffer cells start out unwritten (`none`) when a geometry slot is
allocated; every single field assignment of the source is one `write`
event and one field update, in source order.
-/

namespace PyEmbree

/-- Dense numpy-style array: row-major data together with an explicit shape. -/
structure NDArr (α : Type) where
  shape : List Nat
  data : List α
deriving DecidableEq

/-- Row-major flattening of a multi-index against a shape. -/
def flatIdx (shape ix : List Nat) : Nat :=
  (List.zip ix shape).foldl (fun acc p => acc * p.2 + p.1) 0

/-- A multi-index addresses a scalar iff it has full rank and is in bounds. -/
def inBounds (shape ix : List Nat) : Bool :=
  ix.length == shape.length && (List.zip ix shape).all fun p => p.1 < p.2

/-- Scalar read `a[i0, i1, ...]`; `none` models IndexError (bad rank or out
of bounds) and the TypeError of assigning a subarray to a scalar field. -/
def getScalar (a : NDArr α) (ix : List Nat) : Option α :=
  if inBounds a.shape ix then a.data[flatIdx a.shape ix]? else none

/-- One Embree vertex-buffer cell (fields of the `Vertex` struct); `none`
means the field has not been written since the slot was allocated. -/
structure VtxB (α : Type) where
  x : Option α
  y : Option α
  z : Option α
deriving DecidableEq

/-- One Embree index-buffer cell (fields of the `Triangle` struct). -/
structure TriB where
  v0 : Option Nat
  v1 : Option Nat
  v2 : Option Nat
deriving DecidableEq

/-- The two buffer kinds of `rtcMapBuffer` used by the source. -/
inductive BufKind where
  | vertexBuf
  | indexBuf
deriving DecidableEq

/-- Buffer-protocol events, in chronological order of the trace:
`alloc` is `rtcNewTriangleMesh`, `acquire` is `rtcMapBuffer`, `write` is a
single field assignment into a buffer slot, `release` is `rtcUnmapBuffer`. -/
inductive Ev where
  | alloc (numTri numVert : Nat)
  | acquire (k : BufKind)
  | write (k : BufKind) (slot : Nat)
  | release (k : BufKind)
deriving DecidableEq

/-- Python exceptions raised by the source: `indexError` for failed array
reads (IndexError/TypeError), `notImplementedError` for the arity raise in
`ElementMesh.__init__` (the spec's UnsupportedElementArity). -/
inductive Err where
  | indexError
  | notImplementedError
deriving DecidableEq

/-- Scene-and-caller state: the caller's input arrays, the event trace,
the allocated geometry slots `(numTri, numVert)`, and the buffer contents. -/
structure St (α : Type) where
  inV : NDArr α
  inI : Option (NDArr Nat)
  events : List Ev
  geoms : List (Nat × Nat)
  vbuf : Nat → VtxB α
  ibuf : Nat → TriB

/-- Result of a construction: normal return, or a propagating exception
together with the state at that moment. -/
inductive Res (α : Type) where
  | ok (s : St α)
  | err (e : Err) (s : St α)

/-- Sequencing that lets an exception propagate. -/
def Res.bind : Res α → (St α → Res α) → Res α
  | .ok s, f => f s
  | .err e s, _ => .err e s

/-- State at return, whether normal or exceptional. -/
def resSt : Res α → St α
  | .ok s => s
  | .err _ s => s

/-- The exception, if one propagated. -/
def resErr : Res α → Option Err
  | .ok _ => none
  | .err e _ => some e

/-- Pointwise update of a buffer (a write through the mapped pointer). -/
def upd (b : Nat → β) (i : Nat) (v : β) : Nat → β :=
  fun j => if j = i then v else b j

/-- Source `vertices[slot].x = v`. -/
def wVx (s : St α) (slot : Nat) (v : α) : St α :=
  { s with vbuf := upd s.vbuf slot { s.vbuf slot with x := some v },
           events := s.events ++ [Ev.write .vertexBuf slot] }

/-- Source `vertices[slot].y = v`. -/
def wVy (s : St α) (slot : Nat) (v : α) : St α :=
  { s with vbuf := upd s.vbuf slot { s.vbuf slot with y := some v },
           events := s.events ++ [Ev.write .vertexBuf slot] }

/-- Source `vertices[slot].z = v`. -/
def wVz (s : St α) (slot : Nat) (v : α) : St α :=
  { s with vbuf := upd s.vbuf slot { s.vbuf slot with z := some v },
           events := s.events ++ [Ev.write .vertexBuf slot] }

/-- Source `triangles[slot].v0 = v`. -/
def wT0 (s : St α) (slot : Nat) (v : Nat) : St α :=
  { s with ibuf := upd s.ibuf slot { s.ibuf slot with v0 := some v },
           events := s.events ++ [Ev.write .indexBuf slot] }

/-- Source `triangles[slot].v1 = v`. -/
def wT1 (s : St α) (slot : Nat) (v : Nat) : St α :=
  { s with ibuf := upd s.ibuf slot { s.ibuf slot with v1 := some v },
           events := s.events ++ [Ev.write .indexBuf slot] }

/-- Source `triangles[slot].v2 = v`. -/
def wT2 (s : St α) (slot : Nat) (v : Nat) : St α :=
  { s with ibuf := upd s.ibuf slot { s.ibuf slot with v2 := some v },
           events := s.events ++ [Ev.write .indexBuf slot] }

/-- Read a scalar from the caller's vertex array and assign it to field x of
a vertex-buffer slot; a failed read raises. -/
def wrVx (ix : List Nat) (slot : Nat) (s : St α) : Res α :=
  match getScalar s.inV ix with
  | none => .err .indexError s
  | some v => .ok (wVx s slot v)

/-- Read a scalar from the caller's vertex array and assign it to field y. -/
def wrVy (ix : List Nat) (slot : Nat) (s : St α) : Res α :=
  match getScalar s.inV ix with
  | none => .err .indexError s
  | some v => .ok (wVy s slot v)

/-- Read a scalar from the caller's vertex array and assign it to field z. -/
def wrVz (ix : List Nat) (slot : Nat) (s : St α) : Res α :=
  match getScalar s.inV ix with
  | none => .err .indexError s
  | some v => .ok (wVz s slot v)

/-- Scalar read from the caller's index array (which may be absent). -/
def readIdx (s : St α) (ix : List Nat) : Option Nat :=
  s.inI.bind fun a => getScalar a ix

/-- Read from the index array and assign to field v0 of an index-buffer slot. -/
def wrT0 (ix : List Nat) (slot : Nat) (s : St α) : Res α :=
  match readIdx s ix with
  | none => .err .indexError s
  | some v => .ok (wT0 s slot v)

/-- Read from the index array and assign to field v1. -/
def wrT1 (ix : List Nat) (slot : Nat) (s : St α) : Res α :=
  match readIdx s ix with
  | none => .err .indexError s
  | some v => .ok (wT1 s slot v)

/-- Read from the index array and assign to field v2. -/
def wrT2 (ix : List Nat) (slot : Nat) (s : St α) : Res α :=
  match readIdx s ix with
  | none => .err .indexError s
  | some v => .ok (wT2 s slot v)

/-- Source `rtcNewTriangleMesh(scene, RTC_GEOMETRY_STATIC, nt, nv, 1)`:
records the slot and presents fresh (unwritten) buffers of that geometry. -/
def allocGeom (s : St α) (nt nv : Nat) : St α :=
  { s with geoms := s.geoms ++ [(nt, nv)],
           vbuf := fun _ => ⟨none, none, none⟩,
           ibuf := fun _ => ⟨none, none, none⟩,
           events := s.events ++ [Ev.alloc nt nv] }

/-- Source `rtcMapBuffer`. -/
def acquireB (s : St α) (k : BufKind) : St α :=
  { s with events := s.events ++ [Ev.acquire k] }

/-- Source `rtcUnmapBuffer`. -/
def releaseB (s : St α) (k : BufKind) : St α :=
  { s with events := s.events ++ [Ev.release k] }

/-- A `for` loop body run over a list of loop-counter values, stopping at
the first exception (which then propagates). -/
def runList (f : β → St α → Res α) : List β → St α → Res α
  | [], s => .ok s
  | b :: l, s => (f b s).bind (runList f l)

/-- Inner body of the flat-path vertex loop (`_build_from_flat`, element i,
corner j): three field assignments to vertex slot `i*3 + j`, read from
`tri_vertices[i, j, 0..2]`. -/
def flatVStep (i j : Nat) (s : St α) : Res α :=
  (wrVx [i, j, 0] (i*3+j) s).bind fun s1 =>
  (wrVy [i, j, 1] (i*3+j) s1).bind fun s2 =>
  wrVz [i, j, 2] (i*3+j) s2

/-- Outer body of the flat-path vertex loop: the inner `for j in range(3)`. -/
def flatVElem (i : Nat) (s : St α) : Res α :=
  runList (flatVStep i) (List.range 3) s

/-- Body of the flat-path index loop: `triangles[i] = (i*3, i*3+1, i*3+2)`,
one field at a time; no array reads, so it cannot raise. -/
def flatIStep (i : Nat) (s : St α) : Res α :=
  .ok (wT2 (wT1 (wT0 s i (i*3+0)) i (i*3+1)) i (i*3+2))

/-- Source `TriangleMesh._build_from_flat`: `nt = tri_vertices.shape[0]`,
allocate `(nt, nt*3)`, fill the vertex buffer, then the index buffer. -/
def buildFromFlat (s : St α) : Res α :=
  match s.inV.shape[0]? with
  | none => .err .indexError s
  | some nt =>
    (runList flatVElem (List.range nt)
        (acquireB (allocGeom s nt (nt*3)) .vertexBuf)).bind fun s1 =>
    (runList flatIStep (List.range nt)
        (acquireB (releaseB s1 .vertexBuf) .indexBuf)).bind fun s2 =>
    .ok (releaseB s2 .indexBuf)

/-- Body of the shared-vertex copy loop (`_build_from_indices`,
`_build_from_quads` and `_build_from_triangles` contain the identical
loop): vertex slot i is filled from row i of the input vertex array. -/
def copyVStep (i : Nat) (s : St α) : Res α :=
  (wrVx [i, 0] i s).bind fun s1 =>
  (wrVy [i, 1] i s1).bind fun s2 =>
  wrVz [i, 2] i s2

/-- Body of the indexed-path triangle loop: index-buffer entry i is read
from row i of the input index array (`tri_indices[i][0..2]`). -/
def idxIStep (i : Nat) (s : St α) : Res α :=
  (wrT0 [i, 0] i s).bind fun s1 =>
  (wrT1 [i, 1] i s1).bind fun s2 =>
  wrT2 [i, 2] i s2

/-- Source `TriangleMesh._build_from_indices`: `nv = vertices.shape[0]`,
`nt = indices.shape[0]`, allocate `(nt, nv)`, copy both arrays. -/
def buildFromIndices (s : St α) : Res α :=
  match s.inV.shape[0]?, s.inI.bind fun a => a.shape[0]? with
  | some nv, some nt =>
    (runList copyVStep (List.range nv)
        (acquireB (allocGeom s nt nv) .vertexBuf)).bind fun s1 =>
    (runList idxIStep (List.range nt)
        (acquireB (releaseB s1 .vertexBuf) .indexBuf)).bind fun s2 =>
    .ok (releaseB s2 .indexBuf)
  | _, _ => .err .indexError s

/-- Three consecutive source lines `triangles[slot].v0 = indices[i][a]`,
`triangles[slot].v1 = indices[i][b]`, `triangles[slot].v2 = indices[i][c]`:
one output triangle written from element i's local nodes (a, b, c). -/
def wrTri (a b c i slot : Nat) (s : St α) : Res α :=
  (wrT0 [i, a] slot s).bind fun s1 =>
  (wrT1 [i, b] slot s1).bind fun s2 =>
  wrT2 [i, c] slot s2

/-- Body of the hexahedral triangle loop (`_build_from_quads`): 12
triangles at slots `12*i .. 12*i+11`, written in source order, local node
triples per the six-face table of the source. -/
def hexStep (i : Nat) (s : St α) : Res α :=
  (wrTri 0 1 2 i (12*i) s).bind fun s =>
  (wrTri 0 2 3 i (12*i+1) s).bind fun s =>
  (wrTri 4 5 6 i (12*i+2) s).bind fun s =>
  (wrTri 4 6 7 i (12*i+3) s).bind fun s =>
  (wrTri 0 1 5 i (12*i+4) s).bind fun s =>
  (wrTri 0 5 4 i (12*i+5) s).bind fun s =>
  (wrTri 1 2 6 i (12*i+6) s).bind fun s =>
  (wrTri 1 6 5 i (12*i+7) s).bind fun s =>
  (wrTri 0 3 7 i (12*i+8) s).bind fun s =>
  (wrTri 0 7 4 i (12*i+9) s).bind fun s =>
  (wrTri 3 2 6 i (12*i+10) s).bind fun s =>
  wrTri 3 6 7 i (12*i+11) s

/-- Body of the tetrahedral triangle loop (`_build_from_triangles`): 4
triangles at slots `4*i .. 4*i+3`, faces (0,1,2), (0,1,3), (0,2,3),
(1,2,3). -/
def tetStep (i : Nat) (s : St α) : Res α :=
  (wrTri 0 1 2 i (4*i) s).bind fun s =>
  (wrTri 0 1 3 i (4*i+1) s).bind fun s =>
  (wrTri 0 2 3 i (4*i+2) s).bind fun s =>
  wrTri 1 2 3 i (4*i+3) s

/-- Source `ElementMesh._build_from_quads`: `nv = vertices.shape[0]`,
`ne = indices.shape[0]`, `nt = 6*2*ne`, allocate `(nt, nv)`, copy the
vertex pool, write 12 triangles per element. -/
def buildFromQuads (s : St α) : Res α :=
  match s.inV.shape[0]?, s.inI.bind fun a => a.shape[0]? with
  | some nv, some ne =>
    (runList copyVStep (List.range nv)
        (acquireB (allocGeom s (6*2*ne) nv) .vertexBuf)).bind fun s1 =>
    (runList hexStep (List.range ne)
        (acquireB (releaseB s1 .vertexBuf) .indexBuf)).bind fun s2 =>
    .ok (releaseB s2 .indexBuf)
  | _, _ => .err .indexError s

/-- Source `ElementMesh._build_from_triangles`: `nt = 4*ne`, allocate
`(nt, nv)`, copy the vertex pool, write 4 triangles per element. -/
def buildFromTriangles (s : St α) : Res α :=
  match s.inV.shape[0]?, s.inI.bind fun a => a.shape[0]? with
  | some nv, some ne =>
    (runList copyVStep (List.range nv)
        (acquireB (allocGeom s (4*ne) nv) .vertexBuf)).bind fun s1 =>
    (runList tetStep (List.range ne)
        (acquireB (releaseB s1 .vertexBuf) .indexBuf)).bind fun s2 =>
    .ok (releaseB s2 .indexBuf)
  | _, _ => .err .indexError s

/-- Source `TriangleMesh.__init__`: dispatch on `indices is None`. -/
def TriangleMesh.init (s : St α) : Res α :=
  match s.inI with
  | none => buildFromFlat s
  | some _ => buildFromIndices s

/-- Source `ElementMesh.__init__`: dispatch on `indices.shape[1]`
(8 then 4, anything else raises NotImplementedError before any
allocation). -/
def ElementMesh.init (s : St α) : Res α :=
  match s.inI.bind fun a => a.shape[1]? with
  | none => .err .indexError s
  | some w =>
    if w = 8 then buildFromQuads s
    else if w = 4 then buildFromTriangles s
    else .err .notImplementedError s

/-- The state a fresh construction call starts from: the caller's arrays,
no events, no geometry, unwritten buffers. -/
def initSt (va : NDArr α) (ia : Option (NDArr Nat)) : St α :=
  { inV := va, inI := ia, events := [], geoms := [],
    vbuf := fun _ => ⟨none, none, none⟩, ibuf := fun _ => ⟨none, none, none⟩ }

/-- The fixed hexahedron face/diagonal table of the specification:
local node triples for the 12 triangles of one hexahedron. -/
def hexTable : Nat → Nat × Nat × Nat
  | 0 => (0, 1, 2)
  | 1 => (0, 2, 3)
  | 2 => (4, 5, 6)
  | 3 => (4, 6, 7)
  | 4 => (0, 1, 5)
  | 5 => (0, 5, 4)
  | 6 => (1, 2, 6)
  | 7 => (1, 6, 5)
  | 8 => (0, 3, 7)
  | 9 => (0, 7, 4)
  | 10 => (3, 2, 6)
  | _ => (3, 6, 7)

/-- The fixed tetrahedron face list of the specification. -/
def tetTable : Nat → Nat × Nat × Nat
  | 0 => (0, 1, 2)
  | 1 => (0, 1, 3)
  | 2 => (0, 2, 3)
  | _ => (1, 2, 3)

/-- Triangle `12*e + k` expected by the specification for hexahedral
element e: the k-th table entry mapped through element e's
local-to-global row of the index array. -/
def hexTri (ia : NDArr Nat) (e k : Nat) : TriB :=
  ⟨ia.data[e * 8 + (hexTable k).1]?,
   ia.data[e * 8 + (hexTable k).2.1]?,
   ia.data[e * 8 + (hexTable k).2.2]?⟩

/-- Triangle `4*e + k` expected by the specification for tetrahedral
element e. -/
def tetTri (ia : NDArr Nat) (e k : Nat) : TriB :=
  ⟨ia.data[e * 4 + (tetTable k).1]?,
   ia.data[e * 4 + (tetTable k).2.1]?,
   ia.data[e * 4 + (tetTable k).2.2]?⟩

/-! Projection lemmas: which fields each state operation touches. -/

@[simp] lemma allocGeom_inV (s : St α) (nt nv : Nat) : (allocGeom s nt nv).inV = s.inV := rfl

@[simp] lemma allocGeom_inI (s : St α) (nt nv : Nat) : (allocGeom s nt nv).inI = s.inI := rfl

@[simp] lemma allocGeom_geoms (s : St α) (nt nv : Nat) :
    (allocGeom s nt nv).geoms = s.geoms ++ [(nt, nv)] := rfl

@[simp] lemma allocGeom_events (s : St α) (nt nv : Nat) :
    (allocGeom s nt nv).events = s.events ++ [Ev.alloc nt nv] := rfl

@[simp] lemma allocGeom_vbuf (s : St α) (nt nv : Nat) :
    (allocGeom s nt nv).vbuf = fun _ => ⟨none, none, none⟩ := rfl

@[simp] lemma allocGeom_ibuf (s : St α) (nt nv : Nat) :
    (allocGeom s nt nv).ibuf = fun _ => ⟨none, none, none⟩ := rfl

@[simp] lemma acquireB_inV (s : St α) (k : BufKind) : (acquireB s k).inV = s.inV := rfl

@[simp] lemma acquireB_inI (s : St α) (k : BufKind) : (acquireB s k).inI = s.inI := rfl

@[simp] lemma acquireB_geoms (s : St α) (k : BufKind) : (acquireB s k).geoms = s.geoms := rfl

@[simp] lemma acquireB_events (s : St α) (k : BufKind) :
    (acquireB s k).events = s.events ++ [Ev.acquire k] := rfl

@[simp] lemma acquireB_vbuf (s : St α) (k : BufKind) : (acquireB s k).vbuf = s.vbuf := rfl

@[simp] lemma acquireB_ibuf (s : St α) (k : BufKind) : (acquireB s k).ibuf = s.ibuf := rfl

@[simp] lemma releaseB_inV (s : St α) (k : BufKind) : (releaseB s k).inV = s.inV := rfl

@[simp] lemma releaseB_inI (s : St α) (k : BufKind) : (releaseB s k).inI = s.inI := rfl

@[simp] lemma releaseB_geoms (s : St α) (k : BufKind) : (releaseB s k).geoms = s.geoms := rfl

@[simp] lemma releaseB_events (s : St α) (k : BufKind) :
    (releaseB s k).events = s.events ++ [Ev.release k] := rfl

@[simp] lemma releaseB_vbuf (s : St α) (k : BufKind) : (releaseB s k).vbuf = s.vbuf := rfl

@[simp] lemma releaseB_ibuf (s : St α) (k : BufKind) : (releaseB s k).ibuf = s.ibuf := rfl

@[simp] lemma wVx_inV (s : St α) (i : Nat) (v : α) : (wVx s i v).inV = s.inV := rfl

@[simp] lemma wVy_inV (s : St α) (i : Nat) (v : α) : (wVy s i v).inV = s.inV := rfl

@[simp] lemma wVz_inV (s : St α) (i : Nat) (v : α) : (wVz s i v).inV = s.inV := rfl

@[simp] lemma wVx_inI (s : St α) (i : Nat) (v : α) : (wVx s i v).inI = s.inI := rfl

@[simp] lemma wVy_inI (s : St α) (i : Nat) (v : α) : (wVy s i v).inI = s.inI := rfl

@[simp] lemma wVz_inI (s : St α) (i : Nat) (v : α) : (wVz s i v).inI = s.inI := rfl

@[simp] lemma wT0_inV (s : St α) (i v : Nat) : (wT0 s i v).inV = s.inV := rfl

@[simp] lemma wT1_inV (s : St α) (i v : Nat) : (wT1 s i v).inV = s.inV := rfl

@[simp] lemma wT2_inV (s : St α) (i v : Nat) : (wT2 s i v).inV = s.inV := rfl

@[simp] lemma wT0_inI (s : St α) (i v : Nat) : (wT0 s i v).inI = s.inI := rfl

@[simp] lemma wT1_inI (s : St α) (i v : Nat) : (wT1 s i v).inI = s.inI := rfl

@[simp] lemma wT2_inI (s : St α) (i v : Nat) : (wT2 s i v).inI = s.inI := rfl

/-! Scalar-read lemmas for well-shaped arrays. -/

lemma getScalar_rank2 {a : NDArr α} {n w : Nat} (hs : a.shape = [n, w])
    {i k : Nat} (hi : i < n) (hk : k < w) :
    getScalar a [i, k] = a.data[i * w + k]? := by
  simp [getScalar, inBounds, flatIdx, hs, hi, hk]

lemma getScalar_rank3 {a : NDArr α} {n p q : Nat} (hs : a.shape = [n, p, q])
    {i j c : Nat} (hi : i < n) (hj : j < p) (hc : c < q) :
    getScalar a [i, j, c] = a.data[(i * p + j) * q + c]? := by
  simp [getScalar, inBounds, flatIdx, hs, hi, hj, hc]

/-! Loop-runner lemmas. -/

lemma runList_append (f : β → St α → Res α) (l1 l2 : List β) (s : St α) :
    runList f (l1 ++ l2) s = (runList f l1 s).bind (runList f l2) := by
  induction l1 generalizing s with
  | nil => rfl
  | cons b l ih =>
    show (f b s).bind (runList f (l ++ l2)) = ((f b s).bind (runList f l)).bind (runList f l2)
    cases f b s with
    | ok t => simp [Res.bind, ih]
    | err e t => rfl

lemma runList_one (f : β → St α → Res α) (b : β) (s : St α) :
    runList f [b] s = f b s := by
  show (f b s).bind (runList f []) = f b s
  cases f b s <;> rfl

/-! Event-trace segments produced by the fill loops, defined by recursion on
the loop bound so that loop inductions match them step for step. -/

/-- Events of the shared vertex-copy loop up to slot n: three writes per slot. -/
def copyVEvs : Nat → List Ev
  | 0 => []
  | n + 1 => copyVEvs n ++
      [Ev.write .vertexBuf n, Ev.write .vertexBuf n, Ev.write .vertexBuf n]

/-- Events of the flat-path vertex loop up to triangle n: nine writes per
triangle, three per corner slot `i*3 + j`. -/
def flatVEvs : Nat → List Ev
  | 0 => []
  | n + 1 => flatVEvs n ++
      [Ev.write .vertexBuf (n*3), Ev.write .vertexBuf (n*3), Ev.write .vertexBuf (n*3),
       Ev.write .vertexBuf (n*3+1), Ev.write .vertexBuf (n*3+1), Ev.write .vertexBuf (n*3+1),
       Ev.write .vertexBuf (n*3+2), Ev.write .vertexBuf (n*3+2), Ev.write .vertexBuf (n*3+2)]

/-- Events of a triangle-index fill loop writing `w` consecutive index-buffer
slots per element, three field writes per slot. -/
def idxEvsW (w : Nat) : Nat → List Ev
  | 0 => []
  | n + 1 => idxEvsW w n ++
      (List.range w).flatMap fun k =>
        [Ev.write .indexBuf (w*n+k), Ev.write .indexBuf (w*n+k), Ev.write .indexBuf (w*n+k)]

/-! Effect of one iteration of the shared vertex-copy loop. -/

lemma copyVStep_ok {va : NDArr α} {nv : Nat} (hs : va.shape = [nv, 3])
    (hlen : va.data.length = nv * 3) {i : Nat} (hi : i < nv)
    (s : St α) (hV : s.inV = va) :
    ∃ t, copyVStep i s = .ok t ∧
      t.inV = s.inV ∧ t.inI = s.inI ∧ t.geoms = s.geoms ∧ t.ibuf = s.ibuf ∧
      t.events = s.events ++
        [Ev.write .vertexBuf i, Ev.write .vertexBuf i, Ev.write .vertexBuf i] ∧
      t.vbuf i = ⟨va.data[i*3]?, va.data[i*3+1]?, va.data[i*3+2]?⟩ ∧
      ∀ m, m ≠ i → t.vbuf m = s.vbuf m := by
  obtain ⟨v0, hv0⟩ : ∃ v, va.data[i*3]? = some v :=
    ⟨_, List.getElem?_eq_getElem (by omega)⟩
  obtain ⟨v1, hv1⟩ : ∃ v, va.data[i*3+1]? = some v :=
    ⟨_, List.getElem?_eq_getElem (by omega)⟩
  obtain ⟨v2, hv2⟩ : ∃ v, va.data[i*3+2]? = some v :=
    ⟨_, List.getElem?_eq_getElem (by omega)⟩
  have g0 : getScalar va [i, 0] = some v0 := by
    rw [getScalar_rank2 hs hi (by omega)]; simpa using hv0
  have g1 : getScalar va [i, 1] = some v1 := by
    rw [getScalar_rank2 hs hi (by omega)]; exact hv1
  have g2 : getScalar va [i, 2] = some v2 := by
    rw [getScalar_rank2 hs hi (by omega)]; exact hv2
  refine ⟨wVz (wVy (wVx s i v0) i v1) i v2, ?_, rfl, rfl, rfl, rfl, ?_, ?_, ?_⟩
  · simp only [copyVStep, wrVx, wrVy, wrVz, wVx_inV, wVy_inV, hV, g0, g1, g2, Res.bind]
  · simp [wVx, wVy, wVz, List.append_assoc]
  · simp [wVx, wVy, wVz, upd, hv0, hv1, hv2]
  · intro m hm
    simp [wVx, wVy, wVz, upd, hm]

/-! Effect of the whole shared vertex-copy loop. -/

lemma copyVLoop_ok {va : NDArr α} {nv : Nat} (hs : va.shape = [nv, 3])
    (hlen : va.data.length = nv * 3) :
    ∀ n, n ≤ nv → ∀ s : St α, s.inV = va →
    ∃ t, runList copyVStep (List.range n) s = .ok t ∧
      t.inV = s.inV ∧ t.inI = s.inI ∧ t.geoms = s.geoms ∧ t.ibuf = s.ibuf ∧
      t.events = s.events ++ copyVEvs n ∧
      (∀ i, i < n → t.vbuf i = ⟨va.data[i*3]?, va.data[i*3+1]?, va.data[i*3+2]?⟩) ∧
      ∀ m, n ≤ m → t.vbuf m = s.vbuf m := by
  intro n
  induction n with
  | zero =>
    intro _ s _
    exact ⟨s, rfl, rfl, rfl, rfl, rfl, by simp [copyVEvs], by omega, fun m _ => rfl⟩
  | succ n ih =>
    intro hn s hV
    obtain ⟨t1, h1run, h1V, h1I, h1g, h1ib, h1ev, h1val, h1oth⟩ := ih (by omega) s hV
    obtain ⟨t2, h2run, h2V, h2I, h2g, h2ib, h2ev, h2val, h2oth⟩ :=
      copyVStep_ok hs hlen (i := n) (by omega) t1 (h1V.trans hV)
    refine ⟨t2, ?_, ?_, ?_, ?_, ?_, ?_, ?_, ?_⟩
    · rw [List.range_succ, runList_append, h1run]
      show runList copyVStep [n] t1 = .ok t2
      rw [runList_one, h2run]
    · rw [h2V, h1V]
    · rw [h2I, h1I]
    · rw [h2g, h1g]
    · rw [h2ib, h1ib]
    · rw [h2ev, h1ev, copyVEvs, List.append_assoc]
    · intro i hilt
      rcases Nat.lt_succ_iff_lt_or_eq.mp hilt with hlt | heq
      · rw [h2oth i (by omega), h1val i hlt]
      · subst heq; exact h2val
    · intro m hm
      rw [h2oth m (by omega), h1oth m (by omega)]

/-! Effect of the flat-path vertex loop. -/

lemma flatVStep_ok {va : NDArr α} {n : Nat} (hs : va.shape = [n, 3, 3])
    (hlen : va.data.length = n * 9) {i j : Nat} (hi : i < n) (hj : j < 3)
    (s : St α) (hV : s.inV = va) :
    ∃ t, flatVStep i j s = .ok t ∧
      t.inV = s.inV ∧ t.inI = s.inI ∧ t.geoms = s.geoms ∧ t.ibuf = s.ibuf ∧
      t.events = s.events ++
        [Ev.write .vertexBuf (i*3+j), Ev.write .vertexBuf (i*3+j),
         Ev.write .vertexBuf (i*3+j)] ∧
      t.vbuf (i*3+j) =
        ⟨va.data[(i*3+j)*3]?, va.data[(i*3+j)*3+1]?, va.data[(i*3+j)*3+2]?⟩ ∧
      ∀ m, m ≠ i*3+j → t.vbuf m = s.vbuf m := by
  obtain ⟨v0, hv0⟩ : ∃ v, va.data[(i*3+j)*3]? = some v :=
    ⟨_, List.getElem?_eq_getElem (by omega)⟩
  obtain ⟨v1, hv1⟩ : ∃ v, va.data[(i*3+j)*3+1]? = some v :=
    ⟨_, List.getElem?_eq_getElem (by omega)⟩
  obtain ⟨v2, hv2⟩ : ∃ v, va.data[(i*3+j)*3+2]? = some v :=
    ⟨_, List.getElem?_eq_getElem (by omega)⟩
  have g0 : getScalar va [i, j, 0] = some v0 := by
    rw [getScalar_rank3 hs hi hj (by omega)]; simpa using hv0
  have g1 : getScalar va [i, j, 1] = some v1 := by
    rw [getScalar_rank3 hs hi hj (by omega)]; exact hv1
  have g2 : getScalar va [i, j, 2] = some v2 := by
    rw [getScalar_rank3 hs hi hj (by omega)]; exact hv2
  refine ⟨wVz (wVy (wVx s (i*3+j) v0) (i*3+j) v1) (i*3+j) v2,
    ?_, rfl, rfl, rfl, rfl, ?_, ?_, ?_⟩
  · simp only [flatVStep, wrVx, wrVy, wrVz, wVx_inV, wVy_inV, hV, g0, g1, g2, Res.bind]
  · simp [wVx, wVy, wVz, List.append_assoc]
  · simp [wVx, wVy, wVz, upd, hv0, hv1, hv2]
  · intro m hm
    simp [wVx, wVy, wVz, upd, hm]

lemma flatVElem_ok {va : NDArr α} {n : Nat} (hs : va.shape = [n, 3, 3])
    (hlen : va.data.length = n * 9) {i : Nat} (hi : i < n)
    (s : St α) (hV : s.inV = va) :
    ∃ t, flatVElem i s = .ok t ∧
      t.inV = s.inV ∧ t.inI = s.inI ∧ t.geoms = s.geoms ∧ t.ibuf = s.ibuf ∧
      t.events = s.events ++
        [Ev.write .vertexBuf (i*3), Ev.write .vertexBuf (i*3), Ev.write .vertexBuf (i*3),
         Ev.write .vertexBuf (i*3+1), Ev.write .vertexBuf (i*3+1), Ev.write .vertexBuf (i*3+1),
         Ev.write .vertexBuf (i*3+2), Ev.write .vertexBuf (i*3+2), Ev.write .vertexBuf (i*3+2)] ∧
      (∀ j, j < 3 → t.vbuf (i*3+j) =
        ⟨va.data[(i*3+j)*3]?, va.data[(i*3+j)*3+1]?, va.data[(i*3+j)*3+2]?⟩) ∧
      ∀ m, m < i*3 ∨ i*3+3 ≤ m → t.vbuf m = s.vbuf m := by
  obtain ⟨t0, h0run, h0V, h0I, h0g, h0ib, h0ev, h0val, h0oth⟩ :=
    flatVStep_ok hs hlen hi (j := 0) (by omega) s hV
  obtain ⟨t1, h1run, h1V, h1I, h1g, h1ib, h1ev, h1val, h1oth⟩ :=
    flatVStep_ok hs hlen hi (j := 1) (by omega) t0 (h0V.trans hV)
  obtain ⟨t2, h2run, h2V, h2I, h2g, h2ib, h2ev, h2val, h2oth⟩ :=
    flatVStep_ok hs hlen hi (j := 2) (by omega) t1 (h1V.trans (h0V.trans hV))
  refine ⟨t2, ?_, ?_, ?_, ?_, ?_, ?_, ?_, ?_⟩
  · show (flatVStep i 0 s).bind _ = .ok t2
    rw [h0run]
    show (flatVStep i 1 t0).bind _ = .ok t2
    rw [h1run]
    show (flatVStep i 2 t1).bind _ = .ok t2
    rw [h2run]
    rfl
  · rw [h2V, h1V, h0V]
  · rw [h2I, h1I, h0I]
  · rw [h2g, h1g, h0g]
  · rw [h2ib, h1ib, h0ib]
  · rw [h2ev, h1ev, h0ev]; simp
  · intro j hjlt
    interval_cases j
    · rw [h2oth _ (by omega), h1oth _ (by omega)]; simpa using h0val
    · rw [h2oth _ (by omega)]; exact h1val
    · exact h2val
  · intro m hm
    rw [h2oth m (by omega), h1oth m (by omega), h0oth m (by omega)]

lemma flatVLoop_ok {va : NDArr α} {n : Nat} (hs : va.shape = [n, 3, 3])
    (hlen : va.data.length = n * 9) :
    ∀ nn, nn ≤ n → ∀ s : St α, s.inV = va →
    ∃ t, runList flatVElem (List.range nn) s = .ok t ∧
      t.inV = s.inV ∧ t.inI = s.inI ∧ t.geoms = s.geoms ∧ t.ibuf = s.ibuf ∧
      t.events = s.events ++ flatVEvs nn ∧
      (∀ i j, i < nn → j < 3 → t.vbuf (i*3+j) =
        ⟨va.data[(i*3+j)*3]?, va.data[(i*3+j)*3+1]?, va.data[(i*3+j)*3+2]?⟩) ∧
      ∀ m, nn*3 ≤ m → t.vbuf m = s.vbuf m := by
  intro nn
  induction nn with
  | zero =>
    intro _ s _
    exact ⟨s, rfl, rfl, rfl, rfl, rfl, by simp [flatVEvs], by omega, fun m _ => rfl⟩
  | succ nn ih =>
    intro hn s hV
    obtain ⟨t1, h1run, h1V, h1I, h1g, h1ib, h1ev, h1val, h1oth⟩ := ih (by omega) s hV
    obtain ⟨t2, h2run, h2V, h2I, h2g, h2ib, h2ev, h2val, h2oth⟩ :=
      flatVElem_ok hs hlen (i := nn) (by omega) t1 (h1V.trans hV)
    refine ⟨t2, ?_, ?_, ?_, ?_, ?_, ?_, ?_, ?_⟩
    · rw [List.range_succ, runList_append, h1run]
      show runList flatVElem [nn] t1 = .ok t2
      rw [runList_one, h2run]
    · rw [h2V, h1V]
    · rw [h2I, h1I]
    · rw [h2g, h1g]
    · rw [h2ib, h1ib]
    · rw [h2ev, h1ev, flatVEvs, List.append_assoc]
    · intro i j hilt hjlt
      rcases Nat.lt_succ_iff_lt_or_eq.mp hilt with hlt | heq
      · rw [h2oth _ (by omega), h1val i j hlt hjlt]
      · subst heq; exact h2val j hjlt
    · intro m hm
      rw [h2oth m (by omega), h1oth m (by omega)]

/-! Effect of the flat-path index loop (pure writes, cannot raise). -/

lemma flatIStep_ok (i : Nat) (s : St α) :
    ∃ t, flatIStep i s = .ok t ∧
      t.inV = s.inV ∧ t.inI = s.inI ∧ t.geoms = s.geoms ∧ t.vbuf = s.vbuf ∧
      t.events = s.events ++
        [Ev.write .indexBuf i, Ev.write .indexBuf i, Ev.write .indexBuf i] ∧
      t.ibuf i = ⟨some (i*3), some (i*3+1), some (i*3+2)⟩ ∧
      ∀ m, m ≠ i → t.ibuf m = s.ibuf m := by
  refine ⟨wT2 (wT1 (wT0 s i (i*3+0)) i (i*3+1)) i (i*3+2),
    rfl, rfl, rfl, rfl, rfl, ?_, ?_, ?_⟩
  · simp [wT0, wT1, wT2, List.append_assoc]
  · simp [wT0, wT1, wT2, upd]
  · intro m hm
    simp [wT0, wT1, wT2, upd, hm]

lemma flatILoop_ok :
    ∀ nn : Nat, ∀ s : St α,
    ∃ t, runList flatIStep (List.range nn) s = .ok t ∧
      t.inV = s.inV ∧ t.inI = s.inI ∧ t.geoms = s.geoms ∧ t.vbuf = s.vbuf ∧
      t.events = s.events ++ idxEvsW 1 nn ∧
      (∀ i, i < nn → t.ibuf i = ⟨some (i*3), some (i*3+1), some (i*3+2)⟩) ∧
      ∀ m, nn ≤ m → t.ibuf m = s.ibuf m := by
  intro nn
  induction nn with
  | zero =>
    intro s
    exact ⟨s, rfl, rfl, rfl, rfl, rfl, by simp [idxEvsW], by omega, fun m _ => rfl⟩
  | succ nn ih =>
    intro s
    obtain ⟨t1, h1run, h1V, h1I, h1g, h1vb, h1ev, h1val, h1oth⟩ := ih s
    obtain ⟨t2, h2run, h2V, h2I, h2g, h2vb, h2ev, h2val, h2oth⟩ := flatIStep_ok nn t1
    refine ⟨t2, ?_, ?_, ?_, ?_, ?_, ?_, ?_, ?_⟩
    · rw [List.range_succ, runList_append, h1run]
      show runList flatIStep [nn] t1 = .ok t2
      rw [runList_one, h2run]
    · rw [h2V, h1V]
    · rw [h2I, h1I]
    · rw [h2g, h1g]
    · rw [h2vb, h1vb]
    · rw [h2ev, h1ev, idxEvsW, List.append_assoc]
      simp [show List.range 1 = [0] from rfl]
    · intro i hilt
      rcases Nat.lt_succ_iff_lt_or_eq.mp hilt with hlt | heq
      · rw [h2oth i (by omega), h1val i hlt]
      · subst heq; exact h2val
    · intro m hm
      rw [h2oth m (by omega), h1oth m (by omega)]

/-! Effect of the indexed-path triangle loop. -/

lemma idxIStep_ok {ia : NDArr Nat} {nt : Nat} (hsh : ia.shape = [nt, 3])
    (hlen : ia.data.length = nt * 3) {i : Nat} (hi : i < nt)
    (s : St α) (hI : s.inI = some ia) :
    ∃ t, idxIStep i s = .ok t ∧
      t.inV = s.inV ∧ t.inI = s.inI ∧ t.geoms = s.geoms ∧ t.vbuf = s.vbuf ∧
      t.events = s.events ++
        [Ev.write .indexBuf i, Ev.write .indexBuf i, Ev.write .indexBuf i] ∧
      t.ibuf i = ⟨ia.data[i*3]?, ia.data[i*3+1]?, ia.data[i*3+2]?⟩ ∧
      ∀ m, m ≠ i → t.ibuf m = s.ibuf m := by
  obtain ⟨v0, hv0⟩ : ∃ v, ia.data[i*3]? = some v :=
    ⟨_, List.getElem?_eq_getElem (by omega)⟩
  obtain ⟨v1, hv1⟩ : ∃ v, ia.data[i*3+1]? = some v :=
    ⟨_, List.getElem?_eq_getElem (by omega)⟩
  obtain ⟨v2, hv2⟩ : ∃ v, ia.data[i*3+2]? = some v :=
    ⟨_, List.getElem?_eq_getElem (by omega)⟩
  have g0 : getScalar ia [i, 0] = some v0 := by
    rw [getScalar_rank2 hsh hi (by omega)]; simpa using hv0
  have g1 : getScalar ia [i, 1] = some v1 := by
    rw [getScalar_rank2 hsh hi (by omega)]; exact hv1
  have g2 : getScalar ia [i, 2] = some v2 := by
    rw [getScalar_rank2 hsh hi (by omega)]; exact hv2
  refine ⟨wT2 (wT1 (wT0 s i v0) i v1) i v2, ?_, rfl, rfl, rfl, rfl, ?_, ?_, ?_⟩
  · simp only [idxIStep, wrT0, wrT1, wrT2, readIdx, wT0_inI, wT1_inI, hI,
      Option.some_bind, g0, g1, g2, Res.bind]
  · simp [wT0, wT1, wT2, List.append_assoc]
  · simp [wT0, wT1, wT2, upd, hv0, hv1, hv2]
  · intro m hm
    simp [wT0, wT1, wT2, upd, hm]

lemma idxILoop_ok {ia : NDArr Nat} {nt : Nat} (hsh : ia.shape = [nt, 3])
    (hlen : ia.data.length = nt * 3) :
    ∀ n, n ≤ nt → ∀ s : St α, s.inI = some ia →
    ∃ t, runList idxIStep (List.range n) s = .ok t ∧
      t.inV = s.inV ∧ t.inI = s.inI ∧ t.geoms = s.geoms ∧ t.vbuf = s.vbuf ∧
      t.events = s.events ++ idxEvsW 1 n ∧
      (∀ i, i < n → t.ibuf i = ⟨ia.data[i*3]?, ia.data[i*3+1]?, ia.data[i*3+2]?⟩) ∧
      ∀ m, n ≤ m → t.ibuf m = s.ibuf m := by
  intro n
  induction n with
  | zero =>
    intro _ s _
    exact ⟨s, rfl, rfl, rfl, rfl, rfl, by simp [idxEvsW], by omega, fun m _ => rfl⟩
  | succ n ih =>
    intro hn s hI
    obtain ⟨t1, h1run, h1V, h1I, h1g, h1vb, h1ev, h1val, h1oth⟩ := ih (by omega) s hI
    obtain ⟨t2, h2run, h2V, h2I, h2g, h2vb, h2ev, h2val, h2oth⟩ :=
      idxIStep_ok hsh hlen (i := n) (by omega) t1 (h1I.trans hI)
    refine ⟨t2, ?_, ?_, ?_, ?_, ?_, ?_, ?_, ?_⟩
    · rw [List.range_succ, runList_append, h1run]
      show runList idxIStep [n] t1 = .ok t2
      rw [runList_one, h2run]
    · rw [h2V, h1V]
    · rw [h2I, h1I]
    · rw [h2g, h1g]
    · rw [h2vb, h1vb]
    · rw [h2ev, h1ev, idxEvsW, List.append_assoc]
      simp [show List.range 1 = [0] from rfl]
    · intro i hilt
      rcases Nat.lt_succ_iff_lt_or_eq.mp hilt with hlt | heq
      · rw [h2oth i (by omega), h1val i hlt]
      · subst heq; exact h2val
    · intro m hm
      rw [h2oth m (by omega), h1oth m (by omega)]

/-! Effect of one triangle write (three field assignments). -/

lemma wrTri_ok {ia : NDArr Nat} {ne w : Nat} (hsh : ia.shape = [ne, w])
    (hlen : ia.data.length = ne * w) {i : Nat} (hi : i < ne)
    (a b c slot : Nat) (ha : a < w) (hb : b < w) (hc : c < w)
    (s : St α) (hI : s.inI = some ia) :
    ∃ t, wrTri a b c i slot s = .ok t ∧
      t.inV = s.inV ∧ t.inI = s.inI ∧ t.geoms = s.geoms ∧ t.vbuf = s.vbuf ∧
      t.events = s.events ++
        [Ev.write .indexBuf slot, Ev.write .indexBuf slot, Ev.write .indexBuf slot] ∧
      t.ibuf slot = ⟨ia.data[i*w+a]?, ia.data[i*w+b]?, ia.data[i*w+c]?⟩ ∧
      ∀ m, m ≠ slot → t.ibuf m = s.ibuf m := by
  have hiw : i * w + w ≤ ne * w := by
    have h : (i + 1) * w ≤ ne * w := Nat.mul_le_mul (by omega) (le_refl w)
    simpa [Nat.succ_mul] using h
  obtain ⟨v0, hv0⟩ : ∃ v, ia.data[i*w+a]? = some v :=
    ⟨_, List.getElem?_eq_getElem (by omega)⟩
  obtain ⟨v1, hv1⟩ : ∃ v, ia.data[i*w+b]? = some v :=
    ⟨_, List.getElem?_eq_getElem (by omega)⟩
  obtain ⟨v2, hv2⟩ : ∃ v, ia.data[i*w+c]? = some v :=
    ⟨_, List.getElem?_eq_getElem (by omega)⟩
  have g0 : getScalar ia [i, a] = some v0 := by
    rw [getScalar_rank2 hsh hi ha]; exact hv0
  have g1 : getScalar ia [i, b] = some v1 := by
    rw [getScalar_rank2 hsh hi hb]; exact hv1
  have g2 : getScalar ia [i, c] = some v2 := by
    rw [getScalar_rank2 hsh hi hc]; exact hv2
  refine ⟨wT2 (wT1 (wT0 s slot v0) slot v1) slot v2, ?_, rfl, rfl, rfl, rfl, ?_, ?_, ?_⟩
  · simp only [wrTri, wrT0, wrT1, wrT2, readIdx, wT0_inI, wT1_inI, hI,
      Option.some_bind, g0, g1, g2, Res.bind]
  · simp [wT0, wT1, wT2, List.append_assoc]
  · simp [wT0, wT1, wT2, upd, hv0, hv1, hv2]
  · intro m hm
    simp [wT0, wT1, wT2, upd, hm]

/-! Effect of one iteration of the tetrahedral triangle loop. -/

lemma tetStep_ok {ia : NDArr Nat} {ne : Nat} (hsh : ia.shape = [ne, 4])
    (hlen : ia.data.length = ne * 4) {i : Nat} (hi : i < ne)
    (s : St α) (hI : s.inI = some ia) :
    ∃ t, tetStep i s = .ok t ∧
      t.inV = s.inV ∧ t.inI = s.inI ∧ t.geoms = s.geoms ∧ t.vbuf = s.vbuf ∧
      t.events = s.events ++
        [Ev.write .indexBuf (4*i), Ev.write .indexBuf (4*i), Ev.write .indexBuf (4*i),
         Ev.write .indexBuf (4*i+1), Ev.write .indexBuf (4*i+1), Ev.write .indexBuf (4*i+1),
         Ev.write .indexBuf (4*i+2), Ev.write .indexBuf (4*i+2), Ev.write .indexBuf (4*i+2),
         Ev.write .indexBuf (4*i+3), Ev.write .indexBuf (4*i+3), Ev.write .indexBuf (4*i+3)] ∧
      (∀ k, k < 4 → t.ibuf (4*i+k) = tetTri ia i k) ∧
      ∀ m, m < 4*i ∨ 4*i+4 ≤ m → t.ibuf m = s.ibuf m := by
  obtain ⟨t1, h1run, h1V, h1I, h1g, h1vb, h1ev, h1val, h1oth⟩ :=
    wrTri_ok hsh hlen hi 0 1 2 (4*i) (by omega) (by omega) (by omega) s hI
  obtain ⟨t2, h2run, h2V, h2I, h2g, h2vb, h2ev, h2val, h2oth⟩ :=
    wrTri_ok hsh hlen hi 0 1 3 (4*i+1) (by omega) (by omega) (by omega) t1 (h1I.trans hI)
  obtain ⟨t3, h3run, h3V, h3I, h3g, h3vb, h3ev, h3val, h3oth⟩ :=
    wrTri_ok hsh hlen hi 0 2 3 (4*i+2) (by omega) (by omega) (by omega) t2
      (h2I.trans (h1I.trans hI))
  obtain ⟨t4, h4run, h4V, h4I, h4g, h4vb, h4ev, h4val, h4oth⟩ :=
    wrTri_ok hsh hlen hi 1 2 3 (4*i+3) (by omega) (by omega) (by omega) t3
      (h3I.trans (h2I.trans (h1I.trans hI)))
  refine ⟨t4, ?_, ?_, ?_, ?_, ?_, ?_, ?_, ?_⟩
  · show (wrTri 0 1 2 i (4*i) s).bind _ = .ok t4
    rw [h1run]
    show (wrTri 0 1 3 i (4*i+1) t1).bind _ = .ok t4
    rw [h2run]
    show (wrTri 0 2 3 i (4*i+2) t2).bind _ = .ok t4
    rw [h3run]
    show wrTri 1 2 3 i (4*i+3) t3 = .ok t4
    exact h4run
  · rw [h4V, h3V, h2V, h1V]
  · rw [h4I, h3I, h2I, h1I]
  · rw [h4g, h3g, h2g, h1g]
  · rw [h4vb, h3vb, h2vb, h1vb]
  · rw [h4ev, h3ev, h2ev, h1ev]; simp
  · intro k hk
    interval_cases k
    · rw [h4oth _ (by omega), h3oth _ (by omega), h2oth _ (by omega)]
      show t1.ibuf (4*i) = tetTri ia i 0
      rw [h1val]; rfl
    · rw [h4oth _ (by omega), h3oth _ (by omega)]
      rw [h2val]; rfl
    · rw [h4oth _ (by omega)]
      rw [h3val]; rfl
    · rw [h4val]; rfl
  · intro m hm
    rw [h4oth _ (by omega), h3oth _ (by omega), h2oth _ (by omega), h1oth _ (by omega)]

lemma tetLoop_ok {ia : NDArr Nat} {ne : Nat} (hsh : ia.shape = [ne, 4])
    (hlen : ia.data.length = ne * 4) :
    ∀ n, n ≤ ne → ∀ s : St α, s.inI = some ia →
    ∃ t, runList tetStep (List.range n) s = .ok t ∧
      t.inV = s.inV ∧ t.inI = s.inI ∧ t.geoms = s.geoms ∧ t.vbuf = s.vbuf ∧
      t.events = s.events ++ idxEvsW 4 n ∧
      (∀ e k, e < n → k < 4 → t.ibuf (4*e+k) = tetTri ia e k) ∧
      ∀ m, 4*n ≤ m → t.ibuf m = s.ibuf m := by
  intro n
  induction n with
  | zero =>
    intro _ s _
    exact ⟨s, rfl, rfl, rfl, rfl, rfl, by simp [idxEvsW], by omega, fun m _ => rfl⟩
  | succ n ih =>
    intro hn s hI
    obtain ⟨t1, h1run, h1V, h1I, h1g, h1vb, h1ev, h1val, h1oth⟩ := ih (by omega) s hI
    obtain ⟨t2, h2run, h2V, h2I, h2g, h2vb, h2ev, h2val, h2oth⟩ :=
      tetStep_ok hsh hlen (i := n) (by omega) t1 (h1I.trans hI)
    refine ⟨t2, ?_, ?_, ?_, ?_, ?_, ?_, ?_, ?_⟩
    · rw [List.range_succ, runList_append, h1run]
      show runList tetStep [n] t1 = .ok t2
      rw [runList_one, h2run]
    · rw [h2V, h1V]
    · rw [h2I, h1I]
    · rw [h2g, h1g]
    · rw [h2vb, h1vb]
    · rw [h2ev, h1ev, idxEvsW, List.append_assoc]
      simp [show List.range 4 = [0, 1, 2, 3] from rfl]
    · intro e k helt hklt
      rcases Nat.lt_succ_iff_lt_or_eq.mp helt with hlt | heq
      · rw [h2oth _ (by omega), h1val e k hlt hklt]
      · subst heq; exact h2val k hklt
    · intro m hm
      rw [h2oth m (by omega), h1oth m (by omega)]

/-! Effect of one iteration of the hexahedral triangle loop. -/

lemma hexStep_ok {ia : NDArr Nat} {ne : Nat} (hsh : ia.shape = [ne, 8])
    (hlen : ia.data.length = ne * 8) {i : Nat} (hi : i < ne)
    (s : St α) (hI : s.inI = some ia) :
    ∃ t, hexStep i s = .ok t ∧
      t.inV = s.inV ∧ t.inI = s.inI ∧ t.geoms = s.geoms ∧ t.vbuf = s.vbuf ∧
      t.events = s.events ++ ((List.range 12).flatMap fun k =>
        [Ev.write .indexBuf (12*i+k), Ev.write .indexBuf (12*i+k),
         Ev.write .indexBuf (12*i+k)]) ∧
      (∀ k, k < 12 → t.ibuf (12*i+k) = hexTri ia i k) ∧
      ∀ m, m < 12*i ∨ 12*i+12 ≤ m → t.ibuf m = s.ibuf m := by
  obtain ⟨t1, h1run, h1V, h1I, h1g, h1vb, h1ev, h1val, h1oth⟩ :=
    wrTri_ok hsh hlen hi 0 1 2 (12*i) (by omega) (by omega) (by omega) s hI
  have hI1 : t1.inI = some ia := h1I.trans hI
  obtain ⟨t2, h2run, h2V, h2I, h2g, h2vb, h2ev, h2val, h2oth⟩ :=
    wrTri_ok hsh hlen hi 0 2 3 (12*i+1) (by omega) (by omega) (by omega) t1 hI1
  have hI2 : t2.inI = some ia := h2I.trans hI1
  obtain ⟨t3, h3run, h3V, h3I, h3g, h3vb, h3ev, h3val, h3oth⟩ :=
    wrTri_ok hsh hlen hi 4 5 6 (12*i+2) (by omega) (by omega) (by omega) t2 hI2
  have hI3 : t3.inI = some ia := h3I.trans hI2
  obtain ⟨t4, h4run, h4V, h4I, h4g, h4vb, h4ev, h4val, h4oth⟩ :=
    wrTri_ok hsh hlen hi 4 6 7 (12*i+3) (by omega) (by omega) (by omega) t3 hI3
  have hI4 : t4.inI = some ia := h4I.trans hI3
  obtain ⟨t5, h5run, h5V, h5I, h5g, h5vb, h5ev, h5val, h5oth⟩ :=
    wrTri_ok hsh hlen hi 0 1 5 (12*i+4) (by omega) (by omega) (by omega) t4 hI4
  have hI5 : t5.inI = some ia := h5I.trans hI4
  obtain ⟨t6, h6run, h6V, h6I, h6g, h6vb, h6ev, h6val, h6oth⟩ :=
    wrTri_ok hsh hlen hi 0 5 4 (12*i+5) (by omega) (by omega) (by omega) t5 hI5
  have hI6 : t6.inI = some ia := h6I.trans hI5
  obtain ⟨t7, h7run, h7V, h7I, h7g, h7vb, h7ev, h7val, h7oth⟩ :=
    wrTri_ok hsh hlen hi 1 2 6 (12*i+6) (by omega) (by omega) (by omega) t6 hI6
  have hI7 : t7.inI = some ia := h7I.trans hI6
  obtain ⟨t8, h8run, h8V, h8I, h8g, h8vb, h8ev, h8val, h8oth⟩ :=
    wrTri_ok hsh hlen hi 1 6 5 (12*i+7) (by omega) (by omega) (by omega) t7 hI7
  have hI8 : t8.inI = some ia := h8I.trans hI7
  obtain ⟨t9, h9run, h9V, h9I, h9g, h9vb, h9ev, h9val, h9oth⟩ :=
    wrTri_ok hsh hlen hi 0 3 7 (12*i+8) (by omega) (by omega) (by omega) t8 hI8
  have hI9 : t9.inI = some ia := h9I.trans hI8
  obtain ⟨t10, h10run, h10V, h10I, h10g, h10vb, h10ev, h10val, h10oth⟩ :=
    wrTri_ok hsh hlen hi 0 7 4 (12*i+9) (by omega) (by omega) (by omega) t9 hI9
  have hI10 : t10.inI = some ia := h10I.trans hI9
  obtain ⟨t11, h11run, h11V, h11I, h11g, h11vb, h11ev, h11val, h11oth⟩ :=
    wrTri_ok hsh hlen hi 3 2 6 (12*i+10) (by omega) (by omega) (by omega) t10 hI10
  have hI11 : t11.inI = some ia := h11I.trans hI10
  obtain ⟨t12, h12run, h12V, h12I, h12g, h12vb, h12ev, h12val, h12oth⟩ :=
    wrTri_ok hsh hlen hi 3 6 7 (12*i+11) (by omega) (by omega) (by omega) t11 hI11
  refine ⟨t12, ?_, ?_, ?_, ?_, ?_, ?_, ?_, ?_⟩
  · show (wrTri 0 1 2 i (12*i) s).bind _ = .ok t12
    rw [h1run]
    show (wrTri 0 2 3 i (12*i+1) t1).bind _ = .ok t12
    rw [h2run]
    show (wrTri 4 5 6 i (12*i+2) t2).bind _ = .ok t12
    rw [h3run]
    show (wrTri 4 6 7 i (12*i+3) t3).bind _ = .ok t12
    rw [h4run]
    show (wrTri 0 1 5 i (12*i+4) t4).bind _ = .ok t12
    rw [h5run]
    show (wrTri 0 5 4 i (12*i+5) t5).bind _ = .ok t12
    rw [h6run]
    show (wrTri 1 2 6 i (12*i+6) t6).bind _ = .ok t12
    rw [h7run]
    show (wrTri 1 6 5 i (12*i+7) t7).bind _ = .ok t12
    rw [h8run]
    show (wrTri 0 3 7 i (12*i+8) t8).bind _ = .ok t12
    rw [h9run]
    show (wrTri 0 7 4 i (12*i+9) t9).bind _ = .ok t12
    rw [h10run]
    show (wrTri 3 2 6 i (12*i+10) t10).bind _ = .ok t12
    rw [h11run]
    show wrTri 3 6 7 i (12*i+11) t11 = .ok t12
    exact h12run
  · rw [h12V, h11V, h10V, h9V, h8V, h7V, h6V, h5V, h4V, h3V, h2V, h1V]
  · rw [h12I, h11I, h10I, h9I, h8I, h7I, h6I, h5I, h4I, h3I, h2I, h1I]
  · rw [h12g, h11g, h10g, h9g, h8g, h7g, h6g, h5g, h4g, h3g, h2g, h1g]
  · rw [h12vb, h11vb, h10vb, h9vb, h8vb, h7vb, h6vb, h5vb, h4vb, h3vb, h2vb, h1vb]
  · rw [h12ev, h11ev, h10ev, h9ev, h8ev, h7ev, h6ev, h5ev, h4ev, h3ev, h2ev, h1ev]
    simp [show List.range 12 = [0, 1, 2, 3, 4, 5, 6, 7, 8, 9, 10, 11] from rfl]
  · intro k hk
    interval_cases k
    · rw [h12oth _ (by omega), h11oth _ (by omega), h10oth _ (by omega),
        h9oth _ (by omega), h8oth _ (by omega), h7oth _ (by omega),
        h6oth _ (by omega), h5oth _ (by omega), h4oth _ (by omega),
        h3oth _ (by omega), h2oth _ (by omega)]
      show t1.ibuf (12*i) = hexTri ia i 0
      rw [h1val]; rfl
    · rw [h12oth _ (by omega), h11oth _ (by omega), h10oth _ (by omega),
        h9oth _ (by omega), h8oth _ (by omega), h7oth _ (by omega),
        h6oth _ (by omega), h5oth _ (by omega), h4oth _ (by omega),
        h3oth _ (by omega), h2val]
      rfl
    · rw [h12oth _ (by omega), h11oth _ (by omega), h10oth _ (by omega),
        h9oth _ (by omega), h8oth _ (by omega), h7oth _ (by omega),
        h6oth _ (by omega), h5oth _ (by omega), h4oth _ (by omega), h3val]
      rfl
    · rw [h12oth _ (by omega), h11oth _ (by omega), h10oth _ (by omega),
        h9oth _ (by omega), h8oth _ (by omega), h7oth _ (by omega),
        h6oth _ (by omega), h5oth _ (by omega), h4val]
      rfl
    · rw [h12oth _ (by omega), h11oth _ (by omega), h10oth _ (by omega),
        h9oth _ (by omega), h8oth _ (by omega), h7oth _ (by omega),
        h6oth _ (by omega), h5val]
      rfl
    · rw [h12oth _ (by omega), h11oth _ (by omega), h10oth _ (by omega),
        h9oth _ (by omega), h8oth _ (by omega), h7oth _ (by omega), h6val]
      rfl
    · rw [h12oth _ (by omega), h11oth _ (by omega), h10oth _ (by omega),
        h9oth _ (by omega), h8oth _ (by omega), h7val]
      rfl
    · rw [h12oth _ (by omega), h11oth _ (by omega), h10oth _ (by omega),
        h9oth _ (by omega), h8val]
      rfl
    · rw [h12oth _ (by omega), h11oth _ (by omega), h10oth _ (by omega), h9val]
      rfl
    · rw [h12oth _ (by omega), h11oth _ (by omega), h10val]
      rfl
    · rw [h12oth _ (by omega), h11val]
      rfl
    · rw [h12val]
      rfl
  · intro m hm
    rw [h12oth _ (by omega), h11oth _ (by omega), h10oth _ (by omega),
      h9oth _ (by omega), h8oth _ (by omega), h7oth _ (by omega),
      h6oth _ (by omega), h5oth _ (by omega), h4oth _ (by omega),
      h3oth _ (by omega), h2oth _ (by omega), h1oth _ (by omega)]

lemma hexLoop_ok {ia : NDArr Nat} {ne : Nat} (hsh : ia.shape = [ne, 8])
    (hlen : ia.data.length = ne * 8) :
    ∀ n, n ≤ ne → ∀ s : St α, s.inI = some ia →
    ∃ t, runList hexStep (List.range n) s = .ok t ∧
      t.inV = s.inV ∧ t.inI = s.inI ∧ t.geoms = s.geoms ∧ t.vbuf = s.vbuf ∧
      t.events = s.events ++ idxEvsW 12 n ∧
      (∀ e k, e < n → k < 12 → t.ibuf (12*e+k) = hexTri ia e k) ∧
      ∀ m, 12*n ≤ m → t.ibuf m = s.ibuf m := by
  intro n
  induction n with
  | zero =>
    intro _ s _
    exact ⟨s, rfl, rfl, rfl, rfl, rfl, by simp [idxEvsW], by omega, fun m _ => rfl⟩
  | succ n ih =>
    intro hn s hI
    obtain ⟨t1, h1run, h1V, h1I, h1g, h1vb, h1ev, h1val, h1oth⟩ := ih (by omega) s hI
    obtain ⟨t2, h2run, h2V, h2I, h2g, h2vb, h2ev, h2val, h2oth⟩ :=
      hexStep_ok hsh hlen (i := n) (by omega) t1 (h1I.trans hI)
    refine ⟨t2, ?_, ?_, ?_, ?_, ?_, ?_, ?_, ?_⟩
    · rw [List.range_succ, runList_append, h1run]
      show runList hexStep [n] t1 = .ok t2
      rw [runList_one, h2run]
    · rw [h2V, h1V]
    · rw [h2I, h1I]
    · rw [h2g, h1g]
    · rw [h2vb, h1vb]
    · rw [h2ev, h1ev, idxEvsW, List.append_assoc]
    · intro e k helt hklt
      rcases Nat.lt_succ_iff_lt_or_eq.mp helt with hlt | heq
      · rw [h2oth _ (by omega), h1val e k hlt hklt]
      · subst heq; exact h2val k hklt
    · intro m hm
      rw [h2oth m (by omega), h1oth m (by omega)]

@[simp] lemma initSt_inV (va : NDArr α) (ia : Option (NDArr Nat)) :
    (initSt va ia).inV = va := rfl

@[simp] lemma initSt_inI (va : NDArr α) (ia : Option (NDArr Nat)) :
    (initSt va ia).inI = ia := rfl

@[simp] lemma initSt_events (va : NDArr α) (ia : Option (NDArr Nat)) :
    (initSt va ia).events = [] := rfl

@[simp] lemma initSt_geoms (va : NDArr α) (ia : Option (NDArr Nat)) :
    (initSt va ia).geoms = [] := rfl

/-! End-to-end characterization of the flat (unindexed) construction path
on a well-shaped input. -/

lemma flat_run {va : NDArr α} {n : Nat} (hs : va.shape = [n, 3, 3])
    (hlen : va.data.length = n * 9) :
    ∃ t, TriangleMesh.init (initSt va none) = .ok t ∧
      t.inV = va ∧ t.inI = none ∧
      t.geoms = [(n, n*3)] ∧
      t.events = [Ev.alloc n (n*3), Ev.acquire .vertexBuf] ++ flatVEvs n ++
        [Ev.release .vertexBuf, Ev.acquire .indexBuf] ++ idxEvsW 1 n ++
        [Ev.release .indexBuf] ∧
      (∀ i j, i < n → j < 3 → t.vbuf (i*3+j) =
        ⟨va.data[(i*3+j)*3]?, va.data[(i*3+j)*3+1]?, va.data[(i*3+j)*3+2]?⟩) ∧
      (∀ i, i < n → t.ibuf i = ⟨some (i*3), some (i*3+1), some (i*3+2)⟩) := by
  have hsh0 : va.shape[0]? = some n := by rw [hs]; rfl
  obtain ⟨t1, h1run, h1V, h1I, h1g, h1ib, h1ev, h1val, h1oth⟩ :=
    flatVLoop_ok hs hlen n le_rfl
      (acquireB (allocGeom (initSt va none) n (n*3)) .vertexBuf) (by simp)
  obtain ⟨t2, h2run, h2V, h2I, h2g, h2vb, h2ev, h2val, h2oth⟩ :=
    flatILoop_ok n (acquireB (releaseB t1 .vertexBuf) .indexBuf)
  refine ⟨releaseB t2 .indexBuf, ?_, ?_, ?_, ?_, ?_, ?_, ?_⟩
  · show buildFromFlat (initSt va none) = _
    simp only [buildFromFlat, initSt_inV, hsh0]
    rw [h1run]
    show (runList flatIStep (List.range n)
      (acquireB (releaseB t1 .vertexBuf) .indexBuf)).bind _ = _
    rw [h2run]
    rfl
  · simp only [releaseB_inV]
    rw [h2V]
    simp only [acquireB_inV, releaseB_inV]
    rw [h1V]
    simp
  · simp only [releaseB_inI]
    rw [h2I]
    simp only [acquireB_inI, releaseB_inI]
    rw [h1I]
    simp
  · simp only [releaseB_geoms]
    rw [h2g]
    simp only [acquireB_geoms, releaseB_geoms]
    rw [h1g]
    simp
  · simp only [releaseB_events]
    rw [h2ev]
    simp only [acquireB_events, releaseB_events]
    rw [h1ev]
    simp [List.append_assoc]
  · intro i j hi hj
    simp only [releaseB_vbuf]
    rw [h2vb]
    simp only [acquireB_vbuf, releaseB_vbuf]
    exact h1val i j hi hj
  · intro i hi
    simp only [releaseB_ibuf]
    exact h2val i hi

/-! End-to-end characterization of the indexed construction path. -/

lemma indexed_run {va : NDArr α} {ia : NDArr Nat} {nv nt : Nat}
    (hsv : va.shape = [nv, 3]) (hlv : va.data.length = nv * 3)
    (hsi : ia.shape = [nt, 3]) (hli : ia.data.length = nt * 3) :
    ∃ t, TriangleMesh.init (initSt va (some ia)) = .ok t ∧
      t.inV = va ∧ t.inI = some ia ∧
      t.geoms = [(nt, nv)] ∧
      t.events = [Ev.alloc nt nv, Ev.acquire .vertexBuf] ++ copyVEvs nv ++
        [Ev.release .vertexBuf, Ev.acquire .indexBuf] ++ idxEvsW 1 nt ++
        [Ev.release .indexBuf] ∧
      (∀ i, i < nv → t.vbuf i = ⟨va.data[i*3]?, va.data[i*3+1]?, va.data[i*3+2]?⟩) ∧
      (∀ i, i < nt → t.ibuf i = ⟨ia.data[i*3]?, ia.data[i*3+1]?, ia.data[i*3+2]?⟩) := by
  have hsv0 : va.shape[0]? = some nv := by rw [hsv]; rfl
  have hsi0 : ia.shape[0]? = some nt := by rw [hsi]; rfl
  obtain ⟨t1, h1run, h1V, h1I, h1g, h1ib, h1ev, h1val, h1oth⟩ :=
    copyVLoop_ok hsv hlv nv le_rfl
      (acquireB (allocGeom (initSt va (some ia)) nt nv) .vertexBuf) (by simp)
  have ht1I : t1.inI = some ia := by
    rw [h1I]; simp
  obtain ⟨t2, h2run, h2V, h2I, h2g, h2vb, h2ev, h2val, h2oth⟩ :=
    idxILoop_ok hsi hli nt le_rfl
      (acquireB (releaseB t1 .vertexBuf) .indexBuf)
      (by simp only [acquireB_inI, releaseB_inI]; exact ht1I)
  refine ⟨releaseB t2 .indexBuf, ?_, ?_, ?_, ?_, ?_, ?_, ?_⟩
  · show buildFromIndices (initSt va (some ia)) = _
    simp only [buildFromIndices, initSt_inV, initSt_inI, Option.some_bind, hsv0, hsi0]
    rw [h1run]
    show (runList idxIStep (List.range nt)
      (acquireB (releaseB t1 .vertexBuf) .indexBuf)).bind _ = _
    rw [h2run]
    rfl
  · simp only [releaseB_inV]
    rw [h2V]
    simp only [acquireB_inV, releaseB_inV]
    rw [h1V]
    simp
  · simp only [releaseB_inI]
    rw [h2I]
    simp only [acquireB_inI, releaseB_inI]
    exact ht1I
  · simp only [releaseB_geoms]
    rw [h2g]
    simp only [acquireB_geoms, releaseB_geoms]
    rw [h1g]
    simp
  · simp only [releaseB_events]
    rw [h2ev]
    simp only [acquireB_events, releaseB_events]
    rw [h1ev]
    simp [List.append_assoc]
  · intro i hi
    simp only [releaseB_vbuf]
    rw [h2vb]
    simp only [acquireB_vbuf, releaseB_vbuf]
    exact h1val i hi
  · intro i hi
    simp only [releaseB_ibuf]
    exact h2val i hi

/-! End-to-end characterization of the hexahedral construction path. -/

lemma quads_run {va : NDArr α} {ia : NDArr Nat} {nv ne : Nat}
    (hsv : va.shape = [nv, 3]) (hlv : va.data.length = nv * 3)
    (hsi : ia.shape = [ne, 8]) (hli : ia.data.length = ne * 8) :
    ∃ t, ElementMesh.init (initSt va (some ia)) = .ok t ∧
      t.inV = va ∧ t.inI = some ia ∧
      t.geoms = [(6*2*ne, nv)] ∧
      t.events = [Ev.alloc (6*2*ne) nv, Ev.acquire .vertexBuf] ++ copyVEvs nv ++
        [Ev.release .vertexBuf, Ev.acquire .indexBuf] ++ idxEvsW 12 ne ++
        [Ev.release .indexBuf] ∧
      (∀ i, i < nv → t.vbuf i = ⟨va.data[i*3]?, va.data[i*3+1]?, va.data[i*3+2]?⟩) ∧
      (∀ e k, e < ne → k < 12 → t.ibuf (12*e+k) = hexTri ia e k) := by
  have hsv0 : va.shape[0]? = some nv := by rw [hsv]; rfl
  have hsi0 : ia.shape[0]? = some ne := by rw [hsi]; rfl
  have hsi1 : ia.shape[1]? = some 8 := by rw [hsi]; rfl
  obtain ⟨t1, h1run, h1V, h1I, h1g, h1ib, h1ev, h1val, h1oth⟩ :=
    copyVLoop_ok hsv hlv nv le_rfl
      (acquireB (allocGeom (initSt va (some ia)) (6*2*ne) nv) .vertexBuf) (by simp)
  have ht1I : t1.inI = some ia := by
    rw [h1I]; simp
  obtain ⟨t2, h2run, h2V, h2I, h2g, h2vb, h2ev, h2val, h2oth⟩ :=
    hexLoop_ok hsi hli ne le_rfl
      (acquireB (releaseB t1 .vertexBuf) .indexBuf)
      (by simp only [acquireB_inI, releaseB_inI]; exact ht1I)
  refine ⟨releaseB t2 .indexBuf, ?_, ?_, ?_, ?_, ?_, ?_, ?_⟩
  · simp only [ElementMesh.init, initSt_inI, Option.some_bind, hsi1, if_true]
    simp only [buildFromQuads, initSt_inV, initSt_inI, Option.some_bind, hsv0, hsi0]
    rw [h1run]
    show (runList hexStep (List.range ne)
      (acquireB (releaseB t1 .vertexBuf) .indexBuf)).bind _ = _
    rw [h2run]
    rfl
  · simp only [releaseB_inV]
    rw [h2V]
    simp only [acquireB_inV, releaseB_inV]
    rw [h1V]
    simp
  · simp only [releaseB_inI]
    rw [h2I]
    simp only [acquireB_inI, releaseB_inI]
    exact ht1I
  · simp only [releaseB_geoms]
    rw [h2g]
    simp only [acquireB_geoms, releaseB_geoms]
    rw [h1g]
    simp
  · simp only [releaseB_events]
    rw [h2ev]
    simp only [acquireB_events, releaseB_events]
    rw [h1ev]
    simp [List.append_assoc]
  · intro i hi
    simp only [releaseB_vbuf]
    rw [h2vb]
    simp only [acquireB_vbuf, releaseB_vbuf]
    exact h1val i hi
  · intro e k he hk
    simp only [releaseB_ibuf]
    exact h2val e k he hk

/-! End-to-end characterization of the tetrahedral construction path. -/

lemma tets_run {va : NDArr α} {ia : NDArr Nat} {nv ne : Nat}
    (hsv : va.shape = [nv, 3]) (hlv : va.data.length = nv * 3)
    (hsi : ia.shape = [ne, 4]) (hli : ia.data.length = ne * 4) :
    ∃ t, ElementMesh.init (initSt va (some ia)) = .ok t ∧
      t.inV = va ∧ t.inI = some ia ∧
      t.geoms = [(4*ne, nv)] ∧
      t.events = [Ev.alloc (4*ne) nv, Ev.acquire .vertexBuf] ++ copyVEvs nv ++
        [Ev.release .vertexBuf, Ev.acquire .indexBuf] ++ idxEvsW 4 ne ++
        [Ev.release .indexBuf] ∧
      (∀ i, i < nv → t.vbuf i = ⟨va.data[i*3]?, va.data[i*3+1]?, va.data[i*3+2]?⟩) ∧
      (∀ e k, e < ne → k < 4 → t.ibuf (4*e+k) = tetTri ia e k) := by
  have hsv0 : va.shape[0]? = some nv := by rw [hsv]; rfl
  have hsi0 : ia.shape[0]? = some ne := by rw [hsi]; rfl
  have hsi1 : ia.shape[1]? = some 4 := by rw [hsi]; rfl
  obtain ⟨t1, h1run, h1V, h1I, h1g, h1ib, h1ev, h1val, h1oth⟩ :=
    copyVLoop_ok hsv hlv nv le_rfl
      (acquireB (allocGeom (initSt va (some ia)) (4*ne) nv) .vertexBuf) (by simp)
  have ht1I : t1.inI = some ia := by
    rw [h1I]; simp
  obtain ⟨t2, h2run, h2V, h2I, h2g, h2vb, h2ev, h2val, h2oth⟩ :=
    tetLoop_ok hsi hli ne le_rfl
      (acquireB (releaseB t1 .vertexBuf) .indexBuf)
      (by simp only [acquireB_inI, releaseB_inI]; exact ht1I)
  refine ⟨releaseB t2 .indexBuf, ?_, ?_, ?_, ?_, ?_, ?_, ?_⟩
  · simp only [ElementMesh.init, initSt_inI, Option.some_bind, hsi1, if_true, if_false]
    simp only [buildFromTriangles, initSt_inV, initSt_inI, Option.some_bind, hsv0, hsi0]
    rw [h1run]
    show (runList tetStep (List.range ne)
      (acquireB (releaseB t1 .vertexBuf) .indexBuf)).bind _ = _
    rw [h2run]
    rfl
  · simp only [releaseB_inV]
    rw [h2V]
    simp only [acquireB_inV, releaseB_inV]
    rw [h1V]
    simp
  · simp only [releaseB_inI]
    rw [h2I]
    simp only [acquireB_inI, releaseB_inI]
    exact ht1I
  · simp only [releaseB_geoms]
    rw [h2g]
    simp only [acquireB_geoms, releaseB_geoms]
    rw [h1g]
    simp
  · simp only [releaseB_events]
    rw [h2ev]
    simp only [acquireB_events, releaseB_events]
    rw [h1ev]
    simp [List.append_assoc]
  · intro i hi
    simp only [releaseB_vbuf]
    rw [h2vb]
    simp only [acquireB_vbuf, releaseB_vbuf]
    exact h1val i hi
  · intro e k he hk
    simp only [releaseB_ibuf]
    exact h2val e k he hk

/-! Claim theorems. -/

/-- C1: for every hexahedral input (vertex array of shape (numVertices, 3),
index array of shape (numElements, 8)), ElementMesh construction allocates a
geometry slot with exactly 12*numElements triangles and numVertices vertices,
and for every element e and every k in 0..11, output triangle 12*e+k has the
vertex indices obtained by mapping the k-th entry of the fixed table
[(0,1,2),(0,2,3),(4,5,6),(4,6,7),(0,1,5),(0,5,4),(1,2,6),(1,6,5),(0,3,7),
(0,7,4),(3,2,6),(3,6,7)] through element e's local-to-global index row. -/
theorem C1_hex_decomposition {va : NDArr α} {ia : NDArr Nat} {nv ne : Nat}
    (hsv : va.shape = [nv, 3]) (hlv : va.data.length = nv * 3)
    (hsi : ia.shape = [ne, 8]) (hli : ia.data.length = ne * 8) :
    ∃ t, ElementMesh.init (initSt va (some ia)) = .ok t ∧
      t.geoms = [(12*ne, nv)] ∧
      ∀ e k, e < ne → k < 12 → t.ibuf (12*e+k) = hexTri ia e k := by
  obtain ⟨t, hrun, _, _, hg, _, _, hval⟩ := quads_run hsv hlv hsi hli
  refine ⟨t, hrun, ?_, hval⟩
  rw [hg]

/-- Witness for C1: a single hexahedron on eight vertices. -/
theorem C1_hex_decomposition_witness :
    ∃ t, ElementMesh.init (initSt (⟨[8, 3], List.replicate 24 (0 : Int)⟩ : NDArr Int)
        (some ⟨[1, 8], [0, 1, 2, 3, 4, 5, 6, 7]⟩)) = .ok t ∧
      t.geoms = [(12*1, 8)] ∧
      ∀ e k, e < 1 → k < 12 →
        t.ibuf (12*e+k) = hexTri ⟨[1, 8], [0, 1, 2, 3, 4, 5, 6, 7]⟩ e k :=
  C1_hex_decomposition rfl rfl rfl rfl

/-- C2: for every flat (unindexed) input of shape (N, 3, 3) with indices =
None, TriangleMesh construction allocates a geometry slot with N triangles
and 3N vertices; vertex-buffer slot 3*i+j holds triangle i's j-th corner
coordinates in input order, and index-buffer entry i is exactly the triple
(3i, 3i+1, 3i+2) in that order. -/
theorem C2_flat_construction {va : NDArr α} {n : Nat}
    (hs : va.shape = [n, 3, 3]) (hlen : va.data.length = n * 9) :
    ∃ t, TriangleMesh.init (initSt va none) = .ok t ∧
      t.geoms = [(n, 3*n)] ∧
      (∀ i j, i < n → j < 3 → t.vbuf (3*i+j) =
        ⟨getScalar va [i, j, 0], getScalar va [i, j, 1], getScalar va [i, j, 2]⟩) ∧
      (∀ i, i < n → t.ibuf i = ⟨some (3*i), some (3*i+1), some (3*i+2)⟩) := by
  obtain ⟨t, hrun, _, _, hg, _, hvb, hib⟩ := flat_run hs hlen
  refine ⟨t, hrun, ?_, ?_, ?_⟩
  · rw [hg, Nat.mul_comm]
  · intro i j hi hj
    rw [show 3*i+j = i*3+j by ring,
      getScalar_rank3 hs hi hj (show (0:Nat) < 3 by omega),
      getScalar_rank3 hs hi hj (show (1:Nat) < 3 by omega),
      getScalar_rank3 hs hi hj (show (2:Nat) < 3 by omega)]
    simpa using hvb i j hi hj
  · intro i hi
    have := hib i hi
    simpa [Nat.mul_comm] using this

/-- Witness for C2: two flat triangles. -/
theorem C2_flat_construction_witness :
    ∃ t, TriangleMesh.init
        (initSt (⟨[2, 3, 3], List.replicate 18 (0 : Int)⟩ : NDArr Int) none) = .ok t ∧
      t.geoms = [(2, 3*2)] ∧
      (∀ i j, i < 2 → j < 3 → t.vbuf (3*i+j) =
        ⟨getScalar (⟨[2, 3, 3], List.replicate 18 (0 : Int)⟩ : NDArr Int) [i, j, 0],
         getScalar (⟨[2, 3, 3], List.replicate 18 (0 : Int)⟩ : NDArr Int) [i, j, 1],
         getScalar (⟨[2, 3, 3], List.replicate 18 (0 : Int)⟩ : NDArr Int) [i, j, 2]⟩) ∧
      (∀ i, i < 2 → t.ibuf i = ⟨some (3*i), some (3*i+1), some (3*i+2)⟩) :=
  C2_flat_construction rfl rfl

/-- C3: for every tetrahedral input (vertex array of shape (numVertices, 3),
index array of shape (numElements, 4)), ElementMesh construction allocates a
geometry slot with exactly 4*numElements triangles and numVertices vertices,
and for every element e and every k in 0..3, output triangle 4*e+k has the
vertex indices obtained by mapping the k-th face of the fixed list
[(0,1,2),(0,1,3),(0,2,3),(1,2,3)] through element e's local-to-global index
row. -/
theorem C3_tet_decomposition {va : NDArr α} {ia : NDArr Nat} {nv ne : Nat}
    (hsv : va.shape = [nv, 3]) (hlv : va.data.length = nv * 3)
    (hsi : ia.shape = [ne, 4]) (hli : ia.data.length = ne * 4) :
    ∃ t, ElementMesh.init (initSt va (some ia)) = .ok t ∧
      t.geoms = [(4*ne, nv)] ∧
      ∀ e k, e < ne → k < 4 → t.ibuf (4*e+k) = tetTri ia e k := by
  obtain ⟨t, hrun, _, _, hg, _, _, hval⟩ := tets_run hsv hlv hsi hli
  exact ⟨t, hrun, hg, hval⟩

/-- Witness for C3: a single tetrahedron on four vertices. -/
theorem C3_tet_decomposition_witness :
    ∃ t, ElementMesh.init (initSt (⟨[4, 3], List.replicate 12 (0 : Int)⟩ : NDArr Int)
        (some ⟨[1, 4], [0, 1, 2, 3]⟩)) = .ok t ∧
      t.geoms = [(4*1, 4)] ∧
      ∀ e k, e < 1 → k < 4 →
        t.ibuf (4*e+k) = tetTri ⟨[1, 4], [0, 1, 2, 3]⟩ e k :=
  C3_tet_decomposition rfl rfl rfl rfl

/-- C4: for every indexed input (vertex array of shape (numVertices, 3),
index array of shape (numTriangles, 3)), TriangleMesh construction allocates
a geometry slot with numTriangles triangles and numVertices vertices and
copies the input vertex array verbatim into the vertex buffer and the input
index array verbatim into the index buffer, entry for entry, with no
reordering. -/
theorem C4_indexed_verbatim {va : NDArr α} {ia : NDArr Nat} {nv nt : Nat}
    (hsv : va.shape = [nv, 3]) (hlv : va.data.length = nv * 3)
    (hsi : ia.shape = [nt, 3]) (hli : ia.data.length = nt * 3) :
    ∃ t, TriangleMesh.init (initSt va (some ia)) = .ok t ∧
      t.geoms = [(nt, nv)] ∧
      (∀ i, i < nv → t.vbuf i =
        ⟨getScalar va [i, 0], getScalar va [i, 1], getScalar va [i, 2]⟩) ∧
      (∀ i, i < nt → t.ibuf i =
        ⟨getScalar ia [i, 0], getScalar ia [i, 1], getScalar ia [i, 2]⟩) := by
  obtain ⟨t, hrun, _, _, hg, _, hvb, hib⟩ := indexed_run hsv hlv hsi hli
  refine ⟨t, hrun, hg, ?_, ?_⟩
  · intro i hi
    rw [getScalar_rank2 hsv hi (show (0:Nat) < 3 by omega),
      getScalar_rank2 hsv hi (show (1:Nat) < 3 by omega),
      getScalar_rank2 hsv hi (show (2:Nat) < 3 by omega)]
    simpa using hvb i hi
  · intro i hi
    rw [getScalar_rank2 hsi hi (show (0:Nat) < 3 by omega),
      getScalar_rank2 hsi hi (show (1:Nat) < 3 by omega),
      getScalar_rank2 hsi hi (show (2:Nat) < 3 by omega)]
    simpa using hib i hi

/-- Witness for C4: two indexed triangles sharing an edge on four vertices. -/
theorem C4_indexed_verbatim_witness :
    ∃ t, TriangleMesh.init (initSt (⟨[4, 3], List.replicate 12 (0 : Int)⟩ : NDArr Int)
        (some ⟨[2, 3], [0, 1, 2, 0, 2, 3]⟩)) = .ok t ∧
      t.geoms = [(2, 4)] ∧
      (∀ i, i < 4 → t.vbuf i =
        ⟨getScalar (⟨[4, 3], List.replicate 12 (0 : Int)⟩ : NDArr Int) [i, 0],
         getScalar (⟨[4, 3], List.replicate 12 (0 : Int)⟩ : NDArr Int) [i, 1],
         getScalar (⟨[4, 3], List.replicate 12 (0 : Int)⟩ : NDArr Int) [i, 2]⟩) ∧
      (∀ i, i < 2 → t.ibuf i =
        ⟨getScalar (⟨[2, 3], [0, 1, 2, 0, 2, 3]⟩ : NDArr Nat) [i, 0],
         getScalar (⟨[2, 3], [0, 1, 2, 0, 2, 3]⟩ : NDArr Nat) [i, 1],
         getScalar (⟨[2, 3], [0, 1, 2, 0, 2, 3]⟩ : NDArr Nat) [i, 2]⟩) :=
  C4_indexed_verbatim rfl rfl rfl rfl

/-- Arity dispatch failure: an index array whose second dimension is neither
8 nor 4 makes `ElementMesh.__init__` raise NotImplementedError immediately,
with the state untouched. -/
lemma arity_err {va : NDArr α} {ia : NDArr Nat} {w : Nat}
    (hw : ia.shape[1]? = some w) (h8 : w ≠ 8) (h4 : w ≠ 4) :
    ElementMesh.init (initSt va (some ia)) =
      .err .notImplementedError (initSt va (some ia)) := by
  simp only [ElementMesh.init, initSt_inI, Option.some_bind, hw]
  rw [if_neg h8, if_neg h4]

/-- C5: for every ElementMesh construction whose index array has a second
dimension other than 4 or 8, construction fails with the UnsupportedElementArity
error (the source's NotImplementedError), and this failure occurs before any
scene-side geometry slot is allocated and before any buffer is acquired: the
returned state has an empty event trace and no geometry slots. -/
theorem C5_arity_dispatch {va : NDArr α} {ia : NDArr Nat} {w : Nat}
    (hw : ia.shape[1]? = some w) (h8 : w ≠ 8) (h4 : w ≠ 4) :
    resErr (ElementMesh.init (initSt va (some ia))) = some .notImplementedError ∧
    (resSt (ElementMesh.init (initSt va (some ia)))).events = [] ∧
    (resSt (ElementMesh.init (initSt va (some ia)))).geoms = [] := by
  rw [arity_err hw h8 h4]
  exact ⟨rfl, rfl, rfl⟩

/-- Witness for C5: a five-node element arity. -/
theorem C5_arity_dispatch_witness :
    resErr (ElementMesh.init (initSt (⟨[4, 3], List.replicate 12 (0 : Int)⟩ : NDArr Int)
      (some ⟨[1, 5], [0, 1, 2, 3, 4]⟩))) = some .notImplementedError ∧
    (resSt (ElementMesh.init (initSt (⟨[4, 3], List.replicate 12 (0 : Int)⟩ : NDArr Int)
      (some ⟨[1, 5], [0, 1, 2, 3, 4]⟩)))).events = [] ∧
    (resSt (ElementMesh.init (initSt (⟨[4, 3], List.replicate 12 (0 : Int)⟩ : NDArr Int)
      (some ⟨[1, 5], [0, 1, 2, 3, 4]⟩)))).geoms = [] :=
  C5_arity_dispatch rfl (by decide) (by decide)

/-- C8: construction is deterministic: two runs of TriangleMesh or
ElementMesh construction on equal input arrays (each starting from a fresh
scene) produce identical vertex-buffer contents, index-buffer contents,
and geometry slots (hence identical triangle and vertex counts). -/
theorem C8_deterministic (va va2 : NDArr α) (ii ii2 : Option (NDArr Nat))
    (h1 : va = va2) (h2 : ii = ii2) :
    (resSt (TriangleMesh.init (initSt va ii))).vbuf =
      (resSt (TriangleMesh.init (initSt va2 ii2))).vbuf ∧
    (resSt (TriangleMesh.init (initSt va ii))).ibuf =
      (resSt (TriangleMesh.init (initSt va2 ii2))).ibuf ∧
    (resSt (TriangleMesh.init (initSt va ii))).geoms =
      (resSt (TriangleMesh.init (initSt va2 ii2))).geoms ∧
    (resSt (ElementMesh.init (initSt va ii))).vbuf =
      (resSt (ElementMesh.init (initSt va2 ii2))).vbuf ∧
    (resSt (ElementMesh.init (initSt va ii))).ibuf =
      (resSt (ElementMesh.init (initSt va2 ii2))).ibuf ∧
    (resSt (ElementMesh.init (initSt va ii))).geoms =
      (resSt (ElementMesh.init (initSt va2 ii2))).geoms := by
  subst h1
  subst h2
  exact ⟨rfl, rfl, rfl, rfl, rfl, rfl⟩

/-- Witness for C8 at a concrete input pair. -/
theorem C8_deterministic_witness :
    (resSt (TriangleMesh.init (initSt (⟨[1, 3], [5, 6, 7]⟩ : NDArr Int) none))).vbuf =
      (resSt (TriangleMesh.init (initSt (⟨[1, 3], [5, 6, 7]⟩ : NDArr Int) none))).vbuf ∧
    (resSt (TriangleMesh.init (initSt (⟨[1, 3], [5, 6, 7]⟩ : NDArr Int) none))).ibuf =
      (resSt (TriangleMesh.init (initSt (⟨[1, 3], [5, 6, 7]⟩ : NDArr Int) none))).ibuf ∧
    (resSt (TriangleMesh.init (initSt (⟨[1, 3], [5, 6, 7]⟩ : NDArr Int) none))).geoms =
      (resSt (TriangleMesh.init (initSt (⟨[1, 3], [5, 6, 7]⟩ : NDArr Int) none))).geoms ∧
    (resSt (ElementMesh.init (initSt (⟨[1, 3], [5, 6, 7]⟩ : NDArr Int) none))).vbuf =
      (resSt (ElementMesh.init (initSt (⟨[1, 3], [5, 6, 7]⟩ : NDArr Int) none))).vbuf ∧
    (resSt (ElementMesh.init (initSt (⟨[1, 3], [5, 6, 7]⟩ : NDArr Int) none))).ibuf =
      (resSt (ElementMesh.init (initSt (⟨[1, 3], [5, 6, 7]⟩ : NDArr Int) none))).ibuf ∧
    (resSt (ElementMesh.init (initSt (⟨[1, 3], [5, 6, 7]⟩ : NDArr Int) none))).geoms =
      (resSt (ElementMesh.init (initSt (⟨[1, 3], [5, 6, 7]⟩ : NDArr Int) none))).geoms :=
  C8_deterministic (⟨[1, 3], [5, 6, 7]⟩ : NDArr Int) _ none none rfl rfl

/-- C9: in both ElementMesh decomposition paths (hexahedral and tetrahedral),
the vertex buffer is a verbatim copy of the input vertex array: output vertex
i's (x, y, z) equals row i of the input vertex array, with no vertex
duplicated, dropped, or reordered. -/
theorem C9_element_vertex_copy
    {vaH : NDArr α} {iaH : NDArr Nat} {nvH neH : Nat}
    {vaT : NDArr α} {iaT : NDArr Nat} {nvT neT : Nat}
    (hsvH : vaH.shape = [nvH, 3]) (hlvH : vaH.data.length = nvH * 3)
    (hsiH : iaH.shape = [neH, 8]) (hliH : iaH.data.length = neH * 8)
    (hsvT : vaT.shape = [nvT, 3]) (hlvT : vaT.data.length = nvT * 3)
    (hsiT : iaT.shape = [neT, 4]) (hliT : iaT.data.length = neT * 4) :
    (∃ t, ElementMesh.init (initSt vaH (some iaH)) = .ok t ∧
      ∀ i, i < nvH → t.vbuf i =
        ⟨getScalar vaH [i, 0], getScalar vaH [i, 1], getScalar vaH [i, 2]⟩) ∧
    (∃ t, ElementMesh.init (initSt vaT (some iaT)) = .ok t ∧
      ∀ i, i < nvT → t.vbuf i =
        ⟨getScalar vaT [i, 0], getScalar vaT [i, 1], getScalar vaT [i, 2]⟩) := by
  constructor
  · obtain ⟨t, hrun, _, _, _, _, hvb, _⟩ := quads_run hsvH hlvH hsiH hliH
    refine ⟨t, hrun, ?_⟩
    intro i hi
    rw [getScalar_rank2 hsvH hi (show (0:Nat) < 3 by omega),
      getScalar_rank2 hsvH hi (show (1:Nat) < 3 by omega),
      getScalar_rank2 hsvH hi (show (2:Nat) < 3 by omega)]
    simpa using hvb i hi
  · obtain ⟨t, hrun, _, _, _, _, hvb, _⟩ := tets_run hsvT hlvT hsiT hliT
    refine ⟨t, hrun, ?_⟩
    intro i hi
    rw [getScalar_rank2 hsvT hi (show (0:Nat) < 3 by omega),
      getScalar_rank2 hsvT hi (show (1:Nat) < 3 by omega),
      getScalar_rank2 hsvT hi (show (2:Nat) < 3 by omega)]
    simpa using hvb i hi

/-- Witness for C9: one hexahedron and one tetrahedron. -/
theorem C9_element_vertex_copy_witness :
    (∃ t, ElementMesh.init (initSt (⟨[8, 3], List.replicate 24 (0 : Int)⟩ : NDArr Int)
        (some ⟨[1, 8], [0, 1, 2, 3, 4, 5, 6, 7]⟩)) = .ok t ∧
      ∀ i, i < 8 → t.vbuf i =
        ⟨getScalar (⟨[8, 3], List.replicate 24 (0 : Int)⟩ : NDArr Int) [i, 0],
         getScalar (⟨[8, 3], List.replicate 24 (0 : Int)⟩ : NDArr Int) [i, 1],
         getScalar (⟨[8, 3], List.replicate 24 (0 : Int)⟩ : NDArr Int) [i, 2]⟩) ∧
    (∃ t, ElementMesh.init (initSt (⟨[4, 3], List.replicate 12 (0 : Int)⟩ : NDArr Int)
        (some ⟨[1, 4], [0, 1, 2, 3]⟩)) = .ok t ∧
      ∀ i, i < 4 → t.vbuf i =
        ⟨getScalar (⟨[4, 3], List.replicate 12 (0 : Int)⟩ : NDArr Int) [i, 0],
         getScalar (⟨[4, 3], List.replicate 12 (0 : Int)⟩ : NDArr Int) [i, 1],
         getScalar (⟨[4, 3], List.replicate 12 (0 : Int)⟩ : NDArr Int) [i, 2]⟩) :=
  C9_element_vertex_copy rfl rfl rfl rfl rfl rfl rfl rfl

/-! Input-preservation machinery: no operation of the source writes to the
caller's arrays, so the state fields `inV` and `inI` are invariant along
every construction path, including the exceptional ones. -/

/-- A result keeps the caller's input arrays of the starting state. -/
def rkeeps (r : Res α) (s : St α) : Prop :=
  (resSt r).inV = s.inV ∧ (resSt r).inI = s.inI

lemma keeps_wrVx (ix : List Nat) (slot : Nat) (s : St α) : rkeeps (wrVx ix slot s) s := by
  unfold wrVx
  cases getScalar s.inV ix <;> exact ⟨rfl, rfl⟩

lemma keeps_wrVy (ix : List Nat) (slot : Nat) (s : St α) : rkeeps (wrVy ix slot s) s := by
  unfold wrVy
  cases getScalar s.inV ix <;> exact ⟨rfl, rfl⟩

lemma keeps_wrVz (ix : List Nat) (slot : Nat) (s : St α) : rkeeps (wrVz ix slot s) s := by
  unfold wrVz
  cases getScalar s.inV ix <;> exact ⟨rfl, rfl⟩

lemma keeps_wrT0 (ix : List Nat) (slot : Nat) (s : St α) : rkeeps (wrT0 ix slot s) s := by
  unfold wrT0
  cases readIdx s ix <;> exact ⟨rfl, rfl⟩

lemma keeps_wrT1 (ix : List Nat) (slot : Nat) (s : St α) : rkeeps (wrT1 ix slot s) s := by
  unfold wrT1
  cases readIdx s ix <;> exact ⟨rfl, rfl⟩

lemma keeps_wrT2 (ix : List Nat) (slot : Nat) (s : St α) : rkeeps (wrT2 ix slot s) s := by
  unfold wrT2
  cases readIdx s ix <;> exact ⟨rfl, rfl⟩

lemma keeps_bind {r : Res α} {s : St α} (h : rkeeps r s)
    {f : St α → Res α} (hf : ∀ t, rkeeps (f t) t) : rkeeps (r.bind f) s := by
  cases r with
  | ok t => exact ⟨((hf t).1).trans h.1, ((hf t).2).trans h.2⟩
  | err e t => exact h

lemma keeps_runList {f : β → St α → Res α} (hf : ∀ b s, rkeeps (f b s) s) :
    ∀ (l : List β) (s : St α), rkeeps (runList f l s) s := by
  intro l
  induction l with
  | nil => exact fun s => ⟨rfl, rfl⟩
  | cons b l ih => exact fun s => keeps_bind (hf b s) fun t => ih t

lemma keeps_flatVStep (i j : Nat) (s : St α) : rkeeps (flatVStep i j s) s :=
  keeps_bind (keeps_wrVx _ _ _) fun _ =>
    keeps_bind (keeps_wrVy _ _ _) fun _ => keeps_wrVz _ _ _

lemma keeps_flatVElem (i : Nat) (s : St α) : rkeeps (flatVElem i s) s :=
  keeps_runList (fun b u => keeps_flatVStep i b u) _ s

lemma keeps_flatIStep (i : Nat) (s : St α) : rkeeps (flatIStep i s) s := ⟨rfl, rfl⟩

lemma keeps_copyVStep (i : Nat) (s : St α) : rkeeps (copyVStep i s) s :=
  keeps_bind (keeps_wrVx _ _ _) fun _ =>
    keeps_bind (keeps_wrVy _ _ _) fun _ => keeps_wrVz _ _ _

lemma keeps_idxIStep (i : Nat) (s : St α) : rkeeps (idxIStep i s) s :=
  keeps_bind (keeps_wrT0 _ _ _) fun _ =>
    keeps_bind (keeps_wrT1 _ _ _) fun _ => keeps_wrT2 _ _ _

lemma keeps_wrTri (a b c i slot : Nat) (s : St α) : rkeeps (wrTri a b c i slot s) s :=
  keeps_bind (keeps_wrT0 _ _ _) fun _ =>
    keeps_bind (keeps_wrT1 _ _ _) fun _ => keeps_wrT2 _ _ _

lemma keeps_hexStep (i : Nat) (s : St α) : rkeeps (hexStep i s) s :=
  keeps_bind (keeps_wrTri _ _ _ _ _ _) fun _ =>
  keeps_bind (keeps_wrTri _ _ _ _ _ _) fun _ =>
  keeps_bind (keeps_wrTri _ _ _ _ _ _) fun _ =>
  keeps_bind (keeps_wrTri _ _ _ _ _ _) fun _ =>
  keeps_bind (keeps_wrTri _ _ _ _ _ _) fun _ =>
  keeps_bind (keeps_wrTri _ _ _ _ _ _) fun _ =>
  keeps_bind (keeps_wrTri _ _ _ _ _ _) fun _ =>
  keeps_bind (keeps_wrTri _ _ _ _ _ _) fun _ =>
  keeps_bind (keeps_wrTri _ _ _ _ _ _) fun _ =>
  keeps_bind (keeps_wrTri _ _ _ _ _ _) fun _ =>
  keeps_bind (keeps_wrTri _ _ _ _ _ _) fun _ =>
  keeps_wrTri _ _ _ _ _ _

lemma keeps_tetStep (i : Nat) (s : St α) : rkeeps (tetStep i s) s :=
  keeps_bind (keeps_wrTri _ _ _ _ _ _) fun _ =>
  keeps_bind (keeps_wrTri _ _ _ _ _ _) fun _ =>
  keeps_bind (keeps_wrTri _ _ _ _ _ _) fun _ =>
  keeps_wrTri _ _ _ _ _ _

lemma keeps_buildFromFlat (s : St α) : rkeeps (buildFromFlat s) s := by
  unfold buildFromFlat
  cases s.inV.shape[0]? with
  | none => exact ⟨rfl, rfl⟩
  | some nt =>
    refine keeps_bind ?_ fun s1 => keeps_bind ?_ fun s2 => ⟨rfl, rfl⟩
    · exact keeps_runList keeps_flatVElem _ _
    · exact keeps_runList keeps_flatIStep _ _

lemma keeps_buildFromIndices (s : St α) : rkeeps (buildFromIndices s) s := by
  unfold buildFromIndices
  cases s.inV.shape[0]? with
  | none => exact ⟨rfl, rfl⟩
  | some nv =>
    cases s.inI.bind fun a => a.shape[0]? with
    | none => exact ⟨rfl, rfl⟩
    | some nt =>
      refine keeps_bind ?_ fun s1 => keeps_bind ?_ fun s2 => ⟨rfl, rfl⟩
      · exact keeps_runList keeps_copyVStep _ _
      · exact keeps_runList keeps_idxIStep _ _

lemma keeps_buildFromQuads (s : St α) : rkeeps (buildFromQuads s) s := by
  unfold buildFromQuads
  cases s.inV.shape[0]? with
  | none => exact ⟨rfl, rfl⟩
  | some nv =>
    cases s.inI.bind fun a => a.shape[0]? with
    | none => exact ⟨rfl, rfl⟩
    | some ne =>
      refine keeps_bind ?_ fun s1 => keeps_bind ?_ fun s2 => ⟨rfl, rfl⟩
      · exact keeps_runList keeps_copyVStep _ _
      · exact keeps_runList keeps_hexStep _ _

lemma keeps_buildFromTriangles (s : St α) : rkeeps (buildFromTriangles s) s := by
  unfold buildFromTriangles
  cases s.inV.shape[0]? with
  | none => exact ⟨rfl, rfl⟩
  | some nv =>
    cases s.inI.bind fun a => a.shape[0]? with
    | none => exact ⟨rfl, rfl⟩
    | some ne =>
      refine keeps_bind ?_ fun s1 => keeps_bind ?_ fun s2 => ⟨rfl, rfl⟩
      · exact keeps_runList keeps_copyVStep _ _
      · exact keeps_runList keeps_tetStep _ _

lemma keeps_TriangleMeshInit (s : St α) : rkeeps (TriangleMesh.init s) s := by
  unfold TriangleMesh.init
  cases s.inI with
  | none => exact keeps_buildFromFlat s
  | some ia => exact keeps_buildFromIndices s

lemma keeps_ElementMeshInit (s : St α) : rkeeps (ElementMesh.init s) s := by
  unfold ElementMesh.init
  cases s.inI.bind fun a => a.shape[1]? with
  | none => exact ⟨rfl, rfl⟩
  | some w =>
    show rkeeps (if w = 8 then buildFromQuads s else if w = 4 then
      buildFromTriangles s else Res.err Err.notImplementedError s) s
    by_cases h8 : w = 8
    · rw [if_pos h8]
      exact keeps_buildFromQuads s
    · rw [if_neg h8]
      by_cases h4 : w = 4
      · rw [if_pos h4]
        exact keeps_buildFromTriangles s
      · rw [if_neg h4]
        exact ⟨rfl, rfl⟩

/-- C10: no construction path mutates its input arrays: after any
TriangleMesh or ElementMesh construction (successful or failed), the
caller's vertex and index arrays hold exactly the values they held before
the call — the inputs are only read, never written. -/
theorem C10_inputs_not_mutated (va : NDArr α) (ii : Option (NDArr Nat)) :
    (resSt (TriangleMesh.init (initSt va ii))).inV = va ∧
    (resSt (TriangleMesh.init (initSt va ii))).inI = ii ∧
    (resSt (ElementMesh.init (initSt va ii))).inV = va ∧
    (resSt (ElementMesh.init (initSt va ii))).inI = ii := by
  have hT := keeps_TriangleMeshInit (initSt va ii)
  have hE := keeps_ElementMeshInit (initSt va ii)
  exact ⟨hT.1, hT.2, hE.1, hE.2⟩

/-! Claim C7 concerns shape validation.  The source performs none: on the
flat path a malformed vertex array is only discovered when the fill loop
reads it, which happens after `rtcNewTriangleMesh` and `rtcMapBuffer`. -/

/-- Counterexample to C7 as stated: the flat-path construction on a
malformed (rank-2) vertex array raises an IndexError-class error, but the
state at the raise already contains an allocated geometry slot and an
acquired (unreleased) vertex buffer — the error is not reported before
engine-side allocation, and partial state is created. -/
theorem C7_counterexample :
    resErr (TriangleMesh.init (initSt (⟨[1, 3], [0, 0, 0]⟩ : NDArr Int) none)) =
      some .indexError ∧
    (resSt (TriangleMesh.init (initSt (⟨[1, 3], [0, 0, 0]⟩ : NDArr Int) none))).events =
      [Ev.alloc 1 3, Ev.acquire .vertexBuf] ∧
    (resSt (TriangleMesh.init (initSt (⟨[1, 3], [0, 0, 0]⟩ : NDArr Int) none))).geoms =
      [(1, 3)] := by
  decide

/-- C7 amended: the code performs no shape validation; only the ElementMesh
arity check fires before allocation.  A flat-path construction whose vertex
array has rank 2 (instead of the documented rank 3) and a nonzero first
dimension fails with an IndexError-class error only after the geometry slot
has been allocated and the vertex buffer acquired, leaving that partial
state behind. -/
theorem C7_no_shape_validation {va : NDArr α} {n m : Nat}
    (hs : va.shape = [n, m]) (hn : 0 < n) :
    ∃ s, TriangleMesh.init (initSt va none) = .err .indexError s ∧
      s.events = [Ev.alloc n (n*3), Ev.acquire .vertexBuf] ∧
      s.geoms = [(n, n*3)] := by
  have hsh0 : va.shape[0]? = some n := by rw [hs]; rfl
  have hg : ∀ (slot : Nat) (s : St α), s.inV = va →
      wrVx [0, 0, 0] slot s = .err .indexError s := by
    intro slot s hV
    unfold wrVx
    rw [hV, show getScalar va [0, 0, 0] = none from by simp [getScalar, inBounds, hs]]
  obtain ⟨n', rfl⟩ : ∃ n', n = n' + 1 := ⟨n - 1, by omega⟩
  refine ⟨acquireB (allocGeom (initSt va none) (n'+1) ((n'+1)*3)) .vertexBuf,
    ?_, ?_, ?_⟩
  · show buildFromFlat (initSt va none) = _
    simp only [buildFromFlat, initSt_inV, hsh0]
    rw [List.range_succ_eq_map]
    simp only [runList, flatVElem, show List.range 3 = [0, 1, 2] from rfl, flatVStep]
    rw [hg (0*3+0) _ rfl]
    simp only [Res.bind]
  · simp
  · simp

/-- Witness for the amended C7 at a concrete rank-2 input. -/
theorem C7_no_shape_validation_witness :
    ∃ s, TriangleMesh.init (initSt (⟨[1, 2], [0, 0]⟩ : NDArr Int) none) =
        .err .indexError s ∧
      s.events = [Ev.alloc 1 (1*3), Ev.acquire .vertexBuf] ∧
      s.geoms = [(1, 1*3)] :=
  C7_no_shape_validation rfl (by decide)

/-! Buffer-protocol predicate and trace lemmas for claim C6. -/

/-- The claimed acquire/write/release discipline of one construction trace,
for a geometry slot declared with `ntri` triangles and `nvert` vertices:
each buffer kind is acquired exactly once and released exactly once, every
buffer element is written, no write of a kind precedes its acquire, and no
write of a kind follows its release. -/
def protoOK (t : List Ev) (ntri nvert : Nat) : Prop :=
  t.count (Ev.acquire .vertexBuf) = 1 ∧
  t.count (Ev.release .vertexBuf) = 1 ∧
  t.count (Ev.acquire .indexBuf) = 1 ∧
  t.count (Ev.release .indexBuf) = 1 ∧
  (∀ i, i < nvert → Ev.write .vertexBuf i ∈ t) ∧
  (∀ i, i < ntri → Ev.write .indexBuf i ∈ t) ∧
  (∀ k : BufKind, ∃ t1 t2, t = t1 ++ Ev.acquire k :: t2 ∧ ∀ i, Ev.write k i ∉ t1) ∧
  (∀ k : BufKind, ∃ t1 t2, t = t1 ++ Ev.release k :: t2 ∧ ∀ i, Ev.write k i ∉ t2)

lemma copyVEvs_writes {n : Nat} :
    ∀ e ∈ copyVEvs n, ∃ i, e = Ev.write .vertexBuf i := by
  induction n with
  | zero => simp [copyVEvs]
  | succ n ih =>
    intro e he
    rw [copyVEvs, List.mem_append] at he
    rcases he with he | he
    · exact ih e he
    · simp only [List.mem_cons, List.not_mem_nil, or_false] at he
      rcases he with rfl | rfl | rfl <;> exact ⟨n, rfl⟩

lemma copyVEvs_mem {n : Nat} : ∀ i, i < n → Ev.write .vertexBuf i ∈ copyVEvs n := by
  induction n with
  | zero => omega
  | succ n ih =>
    intro i hi
    rw [copyVEvs, List.mem_append]
    rcases Nat.lt_succ_iff_lt_or_eq.mp hi with h | rfl
    · exact Or.inl (ih i h)
    · simp

lemma flatVEvs_writes {n : Nat} :
    ∀ e ∈ flatVEvs n, ∃ i, e = Ev.write .vertexBuf i := by
  induction n with
  | zero => simp [flatVEvs]
  | succ n ih =>
    intro e he
    rw [flatVEvs, List.mem_append] at he
    rcases he with he | he
    · exact ih e he
    · simp only [List.mem_cons, List.not_mem_nil, or_false] at he
      rcases he with rfl | rfl | rfl | rfl | rfl | rfl | rfl | rfl | rfl <;>
        exact ⟨_, rfl⟩

lemma flatVEvs_mem {n : Nat} : ∀ i, i < n * 3 → Ev.write .vertexBuf i ∈ flatVEvs n := by
  induction n with
  | zero => omega
  | succ n ih =>
    intro i hi
    rw [flatVEvs, List.mem_append]
    by_cases h : i < n * 3
    · exact Or.inl (ih i h)
    · right
      have : i = n*3 ∨ i = n*3+1 ∨ i = n*3+2 := by omega
      rcases this with rfl | rfl | rfl <;> simp

lemma idxEvsW_writes {w n : Nat} :
    ∀ e ∈ idxEvsW w n, ∃ i, e = Ev.write .indexBuf i := by
  induction n with
  | zero => simp [idxEvsW]
  | succ n ih =>
    intro e he
    rw [idxEvsW, List.mem_append] at he
    rcases he with he | he
    · exact ih e he
    · obtain ⟨k, _, hk⟩ := List.mem_flatMap.mp he
      simp only [List.mem_cons, List.not_mem_nil, or_false] at hk
      rcases hk with rfl | rfl | rfl <;> exact ⟨_, rfl⟩

lemma idxEvsW_mem {w n : Nat} : ∀ i, i < w * n → Ev.write .indexBuf i ∈ idxEvsW w n := by
  induction n with
  | zero => omega
  | succ n ih =>
    intro i hi
    rw [idxEvsW, List.mem_append]
    by_cases h : i < w * n
    · exact Or.inl (ih i h)
    · right
      have hexp : w * (n + 1) = w * n + w := by ring
      refine List.mem_flatMap.mpr ⟨i - w*n, List.mem_range.mpr (by omega), ?_⟩
      have : w*n + (i - w*n) = i := by omega
      rw [this]
      simp

/-- Any trace of the canonical shape - allocation, vertex acquire, vertex
writes, vertex release, index acquire, index writes, index release -
satisfies the buffer-protocol predicate, provided the write segments are
pure writes of the matching kind and cover the declared buffer sizes. -/
lemma protoOK_shape (a b ntri nvert : Nat) (vW iW : List Ev)
    (hvW : ∀ e ∈ vW, ∃ i, e = Ev.write .vertexBuf i)
    (hiW : ∀ e ∈ iW, ∃ i, e = Ev.write .indexBuf i)
    (hv : ∀ i, i < nvert → Ev.write .vertexBuf i ∈ vW)
    (hi : ∀ i, i < ntri → Ev.write .indexBuf i ∈ iW) :
    protoOK ([Ev.alloc a b, Ev.acquire .vertexBuf] ++ vW ++
      [Ev.release .vertexBuf, Ev.acquire .indexBuf] ++ iW ++
      [Ev.release .indexBuf]) ntri nvert := by
  have hnotV : ∀ e : Ev, (∀ i, e ≠ Ev.write .vertexBuf i) → e ∉ vW := by
    intro e he hmem
    obtain ⟨i, rfl⟩ := hvW e hmem
    exact he i rfl
  have hnotI : ∀ e : Ev, (∀ i, e ≠ Ev.write .indexBuf i) → e ∉ iW := by
    intro e he hmem
    obtain ⟨i, rfl⟩ := hiW e hmem
    exact he i rfl
  have cv1 : vW.count (Ev.acquire .vertexBuf) = 0 :=
    List.count_eq_zero.mpr (hnotV _ (by intro i h; cases h))
  have cv2 : vW.count (Ev.release .vertexBuf) = 0 :=
    List.count_eq_zero.mpr (hnotV _ (by intro i h; cases h))
  have cv3 : vW.count (Ev.acquire .indexBuf) = 0 :=
    List.count_eq_zero.mpr (hnotV _ (by intro i h; cases h))
  have cv4 : vW.count (Ev.release .indexBuf) = 0 :=
    List.count_eq_zero.mpr (hnotV _ (by intro i h; cases h))
  have ci1 : iW.count (Ev.acquire .vertexBuf) = 0 :=
    List.count_eq_zero.mpr (hnotI _ (by intro i h; cases h))
  have ci2 : iW.count (Ev.release .vertexBuf) = 0 :=
    List.count_eq_zero.mpr (hnotI _ (by intro i h; cases h))
  have ci3 : iW.count (Ev.acquire .indexBuf) = 0 :=
    List.count_eq_zero.mpr (hnotI _ (by intro i h; cases h))
  have ci4 : iW.count (Ev.release .indexBuf) = 0 :=
    List.count_eq_zero.mpr (hnotI _ (by intro i h; cases h))
  refine ⟨?_, ?_, ?_, ?_, ?_, ?_, ?_, ?_⟩
  · simp [List.count_append, cv1, ci1, List.count_cons]
  · simp [List.count_append, cv2, ci2, List.count_cons]
  · simp [List.count_append, cv3, ci3, List.count_cons]
  · simp [List.count_append, cv4, ci4, List.count_cons]
  · intro i hi2
    simp only [List.mem_append]
    exact Or.inl (Or.inl (Or.inl (Or.inr (hv i hi2))))
  · intro i hi2
    simp only [List.mem_append]
    exact Or.inl (Or.inr (hi i hi2))
  · intro k
    cases k with
    | vertexBuf =>
      refine ⟨[Ev.alloc a b],
        vW ++ [Ev.release .vertexBuf, Ev.acquire .indexBuf] ++ iW ++
          [Ev.release .indexBuf], ?_, ?_⟩
      · simp
      · simp
    | indexBuf =>
      refine ⟨[Ev.alloc a b, Ev.acquire .vertexBuf] ++ vW ++ [Ev.release .vertexBuf],
        iW ++ [Ev.release .indexBuf], ?_, ?_⟩
      · simp
      · intro i
        simp only [List.mem_append, List.mem_cons, List.not_mem_nil]
        rintro ((h | h) | h)
        · rcases h with h | h | h <;> cases h
        · exact hnotV _ (by intro i2 h2; cases h2) h
        · rcases h with h | h <;> cases h
  · intro k
    cases k with
    | vertexBuf =>
      refine ⟨[Ev.alloc a b, Ev.acquire .vertexBuf] ++ vW,
        [Ev.acquire .indexBuf] ++ iW ++ [Ev.release .indexBuf], ?_, ?_⟩
      · simp
      · intro i
        simp only [List.mem_append, List.mem_cons, List.not_mem_nil]
        rintro ((h | h) | h)
        · rcases h with h | h <;> cases h
        · exact hnotI _ (by intro i2 h2; cases h2) h
        · rcases h with h | h <;> cases h
    | indexBuf =>
      refine ⟨[Ev.alloc a b, Ev.acquire .vertexBuf] ++ vW ++
        [Ev.release .vertexBuf, Ev.acquire .indexBuf] ++ iW, [], ?_, ?_⟩
      · simp
      · simp

/-- Counterexample to C6 as stated: a flat-path construction on a malformed
(rank-2) vertex array returns by failure with the vertex buffer still
acquired — one acquire call but zero release calls — because the source has
no cleanup on the exception path. -/
theorem C6_counterexample :
    resErr (TriangleMesh.init
      (initSt (⟨[2, 3], [0, 0, 0, 0, 0, 0]⟩ : NDArr Int) none)) = some .indexError ∧
    (resSt (TriangleMesh.init
      (initSt (⟨[2, 3], [0, 0, 0, 0, 0, 0]⟩ : NDArr Int) none))).events.count
        (Ev.acquire .vertexBuf) = 1 ∧
    (resSt (TriangleMesh.init
      (initSt (⟨[2, 3], [0, 0, 0, 0, 0, 0]⟩ : NDArr Int) none))).events.count
        (Ev.release .vertexBuf) = 0 := by
  decide

/-- C6 amended: on every construction path run on inputs matching that
path's documented shapes (so that construction succeeds), each buffer kind
is acquired exactly once and released exactly once, every element of each
buffer is written, no write precedes the acquire or follows the release of
its buffer, and on the arity-failure path (which returns by failure before
any acquisition) the acquire and release counts are equal (both zero).  A
construction failing mid-fill on malformed shapes, however, returns with
the acquired buffer unreleased (see the counterexample). -/
theorem C6_buffer_protocol
    {vaF : NDArr α} {nF : Nat}
    (hsF : vaF.shape = [nF, 3, 3]) (hlF : vaF.data.length = nF * 9)
    {vaX : NDArr α} {iaX : NDArr Nat} {nvX ntX : Nat}
    (hsvX : vaX.shape = [nvX, 3]) (hlvX : vaX.data.length = nvX * 3)
    (hsiX : iaX.shape = [ntX, 3]) (hliX : iaX.data.length = ntX * 3)
    {vaH : NDArr α} {iaH : NDArr Nat} {nvH neH : Nat}
    (hsvH : vaH.shape = [nvH, 3]) (hlvH : vaH.data.length = nvH * 3)
    (hsiH : iaH.shape = [neH, 8]) (hliH : iaH.data.length = neH * 8)
    {vaT : NDArr α} {iaT : NDArr Nat} {nvT neT : Nat}
    (hsvT : vaT.shape = [nvT, 3]) (hlvT : vaT.data.length = nvT * 3)
    (hsiT : iaT.shape = [neT, 4]) (hliT : iaT.data.length = neT * 4)
    {vaA : NDArr α} {iaA : NDArr Nat} {wA : Nat}
    (hwA : iaA.shape[1]? = some wA) (h8A : wA ≠ 8) (h4A : wA ≠ 4) :
    protoOK (resSt (TriangleMesh.init (initSt vaF none))).events nF (nF*3) ∧
    protoOK (resSt (TriangleMesh.init (initSt vaX (some iaX)))).events ntX nvX ∧
    protoOK (resSt (ElementMesh.init (initSt vaH (some iaH)))).events (12*neH) nvH ∧
    protoOK (resSt (ElementMesh.init (initSt vaT (some iaT)))).events (4*neT) nvT ∧
    (resSt (ElementMesh.init (initSt vaA (some iaA)))).events.count
        (Ev.acquire .vertexBuf) =
      (resSt (ElementMesh.init (initSt vaA (some iaA)))).events.count
        (Ev.release .vertexBuf) ∧
    (resSt (ElementMesh.init (initSt vaA (some iaA)))).events.count
        (Ev.acquire .indexBuf) =
      (resSt (ElementMesh.init (initSt vaA (some iaA)))).events.count
        (Ev.release .indexBuf) := by
  refine ⟨?_, ?_, ?_, ?_, ?_, ?_⟩
  · obtain ⟨t, hrun, _, _, _, hev, _, _⟩ := flat_run hsF hlF
    rw [hrun]
    simp only [resSt]
    rw [hev]
    exact protoOK_shape _ _ _ _ _ _ flatVEvs_writes idxEvsW_writes
      (fun i h => flatVEvs_mem i h) (fun i h => idxEvsW_mem i (by omega))
  · obtain ⟨t, hrun, _, _, _, hev, _, _⟩ := indexed_run hsvX hlvX hsiX hliX
    rw [hrun]
    simp only [resSt]
    rw [hev]
    exact protoOK_shape _ _ _ _ _ _ copyVEvs_writes idxEvsW_writes
      (fun i h => copyVEvs_mem i h) (fun i h => idxEvsW_mem i (by omega))
  · obtain ⟨t, hrun, _, _, _, hev, _, _⟩ := quads_run hsvH hlvH hsiH hliH
    rw [hrun]
    simp only [resSt]
    rw [hev]
    exact protoOK_shape _ _ _ _ _ _ copyVEvs_writes idxEvsW_writes
      (fun i h => copyVEvs_mem i h) (fun i h => idxEvsW_mem i (by omega))
  · obtain ⟨t, hrun, _, _, _, hev, _, _⟩ := tets_run hsvT hlvT hsiT hliT
    rw [hrun]
    simp only [resSt]
    rw [hev]
    exact protoOK_shape _ _ _ _ _ _ copyVEvs_writes idxEvsW_writes
      (fun i h => copyVEvs_mem i h) (fun i h => idxEvsW_mem i (by omega))
  · rw [arity_err hwA h8A h4A]
    rfl
  · rw [arity_err hwA h8A h4A]
    rfl

/-- Witness for the amended C6: concrete runs of all four paths plus a
concrete arity failure. -/
theorem C6_buffer_protocol_witness :
    protoOK (resSt (TriangleMesh.init
      (initSt (⟨[1, 3, 3], List.replicate 9 (0 : Int)⟩ : NDArr Int) none))).events
      1 (1*3) ∧
    protoOK (resSt (TriangleMesh.init
      (initSt (⟨[3, 3], List.replicate 9 (0 : Int)⟩ : NDArr Int)
        (some ⟨[1, 3], [0, 1, 2]⟩)))).events 1 3 ∧
    protoOK (resSt (ElementMesh.init
      (initSt (⟨[8, 3], List.replicate 24 (0 : Int)⟩ : NDArr Int)
        (some ⟨[1, 8], [0, 1, 2, 3, 4, 5, 6, 7]⟩)))).events (12*1) 8 ∧
    protoOK (resSt (ElementMesh.init
      (initSt (⟨[4, 3], List.replicate 12 (0 : Int)⟩ : NDArr Int)
        (some ⟨[1, 4], [0, 1, 2, 3]⟩)))).events (4*1) 4 ∧
    (resSt (ElementMesh.init
      (initSt (⟨[1, 3], [0, 0, 0]⟩ : NDArr Int)
        (some ⟨[1, 5], [0, 0, 0, 0, 0]⟩)))).events.count (Ev.acquire .vertexBuf) =
      (resSt (ElementMesh.init
        (initSt (⟨[1, 3], [0, 0, 0]⟩ : NDArr Int)
          (some ⟨[1, 5], [0, 0, 0, 0, 0]⟩)))).events.count (Ev.release .vertexBuf) ∧
    (resSt (ElementMesh.init
      (initSt (⟨[1, 3], [0, 0, 0]⟩ : NDArr Int)
        (some ⟨[1, 5], [0, 0, 0, 0, 0]⟩)))).events.count (Ev.acquire .indexBuf) =
      (resSt (ElementMesh.init
        (initSt (⟨[1, 3], [0, 0, 0]⟩ : NDArr Int)
          (some ⟨[1, 5], [0, 0, 0, 0, 0]⟩)))).events.count (Ev.release .indexBuf) :=
  C6_buffer_protocol rfl rfl rfl rfl rfl rfl rfl rfl rfl rfl rfl rfl rfl rfl
    rfl (by decide) (by decide)

end PyEmbree
